import Mathlib

set_option maxHeartbeats 1000000
set_option maxRecDepth 100000
set_option exponentiation.threshold 1100

unseal Rat.add Rat.mul Rat.sub Rat.inv

/-!
Verification of the Codex bridge of the vibecord repository
(src/codex/bridge.ts): output parsing, bridge orchestration, session log
tailing, and the per-session lock.

Process output is modelled as Lean strings.  JSON values produced by
JSON.parse are modelled by the inductive JsVal below; numbers are modelled
as exact rationals together with the infinities an overflowing literal
produces (float rounding of in-range literals is not modelled, and the
overflow cutoff is the power 2 ^ 1024).
-/

/-- JavaScript numbers as parsed from JSON: finite (modelled exactly as a
rational) or an infinity produced by an overflowing literal. -/
inductive JNum where
  | fin (q : ℚ)
  | inf (neg : Bool)
deriving DecidableEq

/-- JSON values as produced by JSON.parse.  Object fields keep textual
order; lookup takes the last binding, as JSON.parse keeps the last
duplicate key. -/
inductive JsVal where
  | null
  | bool (b : Bool)
  | num (n : JNum)
  | str (s : String)
  | arr (elems : List JsVal)
  | obj (fields : List (String × JsVal))

/-- Last binding wins, like JS object construction with duplicate keys. -/
def lookupLast (fields : List (String × JsVal)) (key : String) : Option JsVal :=
  fields.foldl (fun acc kv => if kv.1 = key then some kv.2 else acc) none

/-- Property access `v.key`; yields none (undefined) on non-objects. -/
def objGet (v : JsVal) (key : String) : Option JsVal :=
  match v with
  | .obj fields => lookupLast fields key
  | _ => none

/-- The guard `value && typeof value === "object"` used throughout
bridge.ts: true for objects and arrays, false for null and primitives. -/
def isObjectLike : JsVal → Bool
  | .obj _ => true
  | .arr _ => true
  | _ => false

/-- Whitespace accepted between JSON tokens (strict JSON). -/
def isJsonWs (c : Char) : Bool :=
  if c = ' ' ∨ c = '\t' ∨ c = '\n' ∨ c = '\r' then true else false

/-- Whitespace for JS String.prototype.trim and the regex class \s
(ASCII part plus NBSP and BOM). -/
def isJsWhitespace (c : Char) : Bool :=
  if c = ' ' ∨ c = '\t' ∨ c = '\n' ∨ c = '\r' ∨ c = Char.ofNat 11 ∨
      c = Char.ofNat 12 ∨ c = Char.ofNat 160 ∨ c = Char.ofNat 65279 then true
  else false

/-- JS String.prototype.trim on the character list. -/
def jsTrimChars (cs : List Char) : List Char :=
  ((cs.dropWhile isJsWhitespace).reverse.dropWhile isJsWhitespace).reverse

/-- JS String.prototype.trim. -/
def jsTrim (s : String) : String := String.mk (jsTrimChars s.data)

/-- `s.replace(/\r/g, "")`. -/
def removeCR (s : String) : String := String.mk (s.data.filter (fun c => c != '\r'))

/-- `s.split("\n")` — worker on character lists. -/
def splitNLAux : List Char → List Char → List String
  | [], acc => [String.mk acc.reverse]
  | c :: cs, acc =>
    if c = '\n' then String.mk acc.reverse :: splitNLAux cs []
    else splitNLAux cs (c :: acc)

/-- `s.split("\n")`. -/
def splitNL (s : String) : List String := splitNLAux s.data []

/-- `lines.join("\n")`. -/
def joinNL : List String → String
  | [] => ""
  | [x] => x
  | x :: y :: ys => x ++ "\n" ++ joinNL (y :: ys)

/-- The body of the last-wins loops: `if (x) latest = x`. -/
def keepLatest {α : Type} (acc : Option α) (o : Option α) : Option α :=
  match o with
  | some v => some v
  | none => acc

/-- The last `some` of a list of optional values: the value left in an
accumulator that is overwritten by every later hit (last-wins loops). -/
def lastSome {α : Type} (l : List (Option α)) : Option α :=
  l.foldl keepLatest none

/-- `s.startsWith(pre)`. -/
def strStartsWith (s pre : String) : Bool := pre.data.isPrefixOf s.data

/-- `s.endsWith(suf)`. -/
def strEndsWith (s suf : String) : Bool := suf.data.isSuffixOf s.data

/-- Worker for `hay.lastIndexOf(needle)`. -/
def lastIndexOfAux (needle : List Char) : List Char → Nat → Option Nat → Option Nat
  | [], i, best => if needle.isPrefixOf ([] : List Char) then some i else best
  | c :: cs, i, best =>
    lastIndexOfAux needle cs (i + 1)
      (if needle.isPrefixOf (c :: cs) then some i else best)

/-- `hay.lastIndexOf(needle)` returning none instead of -1. -/
def lastIndexOfSub (hay needle : List Char) : Option Nat :=
  lastIndexOfAux needle hay 0 none

/-- `hay.includes(needle)`. -/
def containsSub (hay needle : List Char) : Bool := (lastIndexOfSub hay needle).isSome

/-- `s.toLowerCase()` (ASCII range). -/
def toLowerStr (s : String) : String := String.mk (s.data.map Char.toLower)

/-- Decimal digit test. -/
def isDigitChar (c : Char) : Bool := if 48 ≤ c.toNat ∧ c.toNat ≤ 57 then true else false

/-- Hexadecimal digit test (either case). -/
def isHexChar (c : Char) : Bool :=
  if (48 ≤ c.toNat ∧ c.toNat ≤ 57) ∨ (97 ≤ c.toNat ∧ c.toNat ≤ 102) ∨
      (65 ≤ c.toNat ∧ c.toNat ≤ 70) then true
  else false

/-- Value of a hexadecimal digit. -/
def hexVal (c : Char) : Nat :=
  if 48 ≤ c.toNat ∧ c.toNat ≤ 57 then c.toNat - 48
  else if 97 ≤ c.toNat ∧ c.toNat ≤ 102 then c.toNat - 87
  else if 65 ≤ c.toNat ∧ c.toNat ≤ 70 then c.toNat - 55
  else 0

/-- Numeric value of a list of decimal digits. -/
def digitsToNat (ds : List Char) : Nat := ds.foldl (fun acc c => acc * 10 + (c.toNat - 48)) 0

/-- JSON string body after the opening quote; handles the escapes
JSON.parse accepts and rejects raw control characters. -/
def parseStrBody (fuel : Nat) (acc : List Char) (cs : List Char) : Option (String × List Char) :=
  match fuel with
  | 0 => none
  | fuel + 1 =>
    match cs with
    | [] => none
    | c :: cs1 =>
      if c = '"' then some (String.mk acc.reverse, cs1)
      else if c = '\\' then
        match cs1 with
        | [] => none
        | e :: cs2 =>
          if e = '"' then parseStrBody fuel ('"' :: acc) cs2
          else if e = '\\' then parseStrBody fuel ('\\' :: acc) cs2
          else if e = '/' then parseStrBody fuel ('/' :: acc) cs2
          else if e = 'b' then parseStrBody fuel (Char.ofNat 8 :: acc) cs2
          else if e = 'f' then parseStrBody fuel (Char.ofNat 12 :: acc) cs2
          else if e = 'n' then parseStrBody fuel ('\n' :: acc) cs2
          else if e = 'r' then parseStrBody fuel ('\r' :: acc) cs2
          else if e = 't' then parseStrBody fuel ('\t' :: acc) cs2
          else if e = 'u' then
            match cs2 with
            | h1 :: h2 :: h3 :: h4 :: cs3 =>
              if isHexChar h1 && isHexChar h2 && isHexChar h3 && isHexChar h4 then
                parseStrBody fuel
                  (Char.ofNat (((hexVal h1 * 16 + hexVal h2) * 16 + hexVal h3) * 16 + hexVal h4) :: acc) cs3
              else none
            | _ => none
          else none
      else if c.toNat < 32 then none
      else parseStrBody fuel (c :: acc) cs1

/-- Overflow cutoff for doubles, as a natural number. -/
def overflowThreshold : Nat := 2 ^ 1024

/-- Builds the numeric value `(-1)^neg * mant * 10^scale`, collapsing to an
infinity on overflow and to zero far below the denormal range. -/
def mkJNum (neg : Bool) (mant : Nat) (scale : Int) : JNum :=
  if mant = 0 then .fin 0
  else if 400 < scale then .inf neg
  else if scale < -400 then .fin 0
  else
    let mag : ℚ :=
      if 0 ≤ scale then ((mant * 10 ^ scale.toNat : Nat) : ℚ)
      else (mant : ℚ) / ((10 ^ (-scale).toNat : Nat) : ℚ)
    if overflowThreshold * mag.den ≤ mag.num.natAbs then .inf neg
    else .fin (if neg then -mag else mag)

/-- Optional fraction part `.digits` of a JSON number. -/
def parseFrac (cs : List Char) : Option (List Char × List Char) :=
  match cs with
  | c :: r =>
    if c = '.' then
      let ds := r.takeWhile isDigitChar
      if ds = [] then none else some (ds, r.drop ds.length)
    else some ([], cs)
  | [] => some ([], cs)

/-- Optional exponent part `e[+-]digits` of a JSON number. -/
def parseExp (cs : List Char) : Option (Int × List Char) :=
  match cs with
  | c :: r =>
    if c = 'e' ∨ c = 'E' then
      let signAndRest : Int × List Char :=
        match r with
        | d :: r2 => if d = '+' then (1, r2) else if d = '-' then (-1, r2) else (1, r)
        | [] => (1, r)
      let ds := signAndRest.2.takeWhile isDigitChar
      if ds = [] then none
      else some (signAndRest.1 * (digitsToNat ds : Int), signAndRest.2.drop ds.length)
    else some (0, cs)
  | [] => some (0, cs)

/-- A JSON number token at the head of the input (strict JSON grammar:
optional minus, no leading zeros, optional fraction and exponent). -/
def parseNumAt (cs : List Char) : Option (JsVal × List Char) :=
  let signAndRest : Bool × List Char :=
    match cs with
    | c :: r => if c = '-' then (true, r) else (false, c :: r)
    | [] => (false, [])
  let cs1 := signAndRest.2
  let intDs := cs1.takeWhile isDigitChar
  if intDs = [] then none
  else if 2 ≤ intDs.length ∧ intDs.headD 'x' = '0' then none
  else
    match parseFrac (cs1.drop intDs.length) with
    | none => none
    | some (fracDs, cs3) =>
      match parseExp cs3 with
      | none => none
      | some (e, cs4) =>
        let mant := digitsToNat (intDs ++ fracDs)
        let scale : Int := e - (fracDs.length : Int)
        some (.num (mkJNum signAndRest.1 mant scale), cs4)

/-- Mode of the fuel-indexed JSON parser: a value, the remaining fields of
an object, or the remaining elements of an array. -/
inductive PMode where
  | value
  | objRest (acc : List (String × JsVal))
  | arrRest (acc : List JsVal)

/-- Skip JSON whitespace. -/
def skipJsonWs (cs : List Char) : List Char := cs.dropWhile isJsonWs

/-- Fuel-indexed JSON parser (single structural recursion so that the
kernel can evaluate it). -/
def parseP : Nat → PMode → List Char → Option (JsVal × List Char)
  | 0, _, _ => none
  | fuel + 1, .value, cs0 =>
    match skipJsonWs cs0 with
    | [] => none
    | c :: cs =>
      if c = 'n' then
        match cs with
        | 'u' :: 'l' :: 'l' :: rest => some (.null, rest)
        | _ => none
      else if c = 't' then
        match cs with
        | 'r' :: 'u' :: 'e' :: rest => some (.bool true, rest)
        | _ => none
      else if c = 'f' then
        match cs with
        | 'a' :: 'l' :: 's' :: 'e' :: rest => some (.bool false, rest)
        | _ => none
      else if c = '"' then
        (parseStrBody (cs.length + 1) [] cs).map (fun p => (.str p.1, p.2))
      else if c = Char.ofNat 123 then
        match skipJsonWs cs with
        | d :: rest2 =>
          if d = Char.ofNat 125 then some (.obj [], rest2)
          else parseP fuel (.objRest []) cs
        | [] => none
      else if c = '[' then
        match skipJsonWs cs with
        | d :: rest2 =>
          if d = ']' then some (.arr [], rest2)
          else parseP fuel (.arrRest []) (skipJsonWs cs)
        | [] => none
      else parseNumAt (c :: cs)
  | fuel + 1, .objRest acc, cs0 =>
    match skipJsonWs cs0 with
    | c :: cs =>
      if c = '"' then
        match parseStrBody (cs.length + 1) [] cs with
        | none => none
        | some (key, r1) =>
          match skipJsonWs r1 with
          | ':' :: r3 =>
            match parseP fuel .value r3 with
            | none => none
            | some (v, r4) =>
              match skipJsonWs r4 with
              | ',' :: r6 => parseP fuel (.objRest (acc ++ [(key, v)])) r6
              | d :: r6 =>
                if d = Char.ofNat 125 then some (.obj (acc ++ [(key, v)]), r6)
                else none
              | [] => none
          | _ => none
      else none
    | [] => none
  | fuel + 1, .arrRest acc, cs0 =>
    match parseP fuel .value cs0 with
    | none => none
    | some (v, r1) =>
      match skipJsonWs r1 with
      | ',' :: r3 => parseP fuel (.arrRest (acc ++ [v])) r3
      | ']' :: r3 => some (.arr (acc ++ [v]), r3)
      | _ => none

/-- JSON.parse: parse a complete value, requiring only whitespace after. -/
def jsonParse (s : String) : Option JsVal :=
  match parseP (2 * s.data.length + 4) .value s.data with
  | some (v, rest) => if skipJsonWs rest = [] then some v else none
  | none => none

/-- bridge.ts parseJsonLine: trim, demand braces at both ends, JSON.parse
with malformed lines yielding undefined. -/
def parseJsonLine (line : String) : Option JsVal :=
  let trimmed := jsTrim line
  if strStartsWith trimmed "\x7b" && strEndsWith trimmed "\x7d" then jsonParse trimmed
  else none

/-! ### Field validators (bridge.ts asString .. asNumberOrNull) -/

/-- bridge.ts asString: a string trims to a non-empty value or undefined. -/
def asString (v : Option JsVal) : Option String :=
  match v with
  | some (.str s) => if jsTrim s = "" then none else some (jsTrim s)
  | _ => none

/-- bridge.ts asStringOrNull. -/
def asStringOrNull (v : Option JsVal) : Option (Option String) :=
  match v with
  | some .null => some none
  | _ => (asString v).map some

/-- bridge.ts asFiniteNumber: only finite numbers pass. -/
def asFiniteNumber (v : Option JsVal) : Option ℚ :=
  match v with
  | some (.num (.fin q)) => some q
  | _ => none

/-- bridge.ts asBoolean: only strict booleans pass. -/
def asBoolean (v : Option JsVal) : Option Bool :=
  match v with
  | some (.bool b) => some b
  | _ => none

/-- bridge.ts asNumberOrNull. -/
def asNumberOrNull (v : Option JsVal) : Option (Option ℚ) :=
  match v with
  | some .null => some none
  | _ => (asFiniteNumber v).map some

/-- The `a ?? b` operator on JSON field values (null and undefined are
nullish). -/
def jsCoalesce (a b : Option JsVal) : Option JsVal :=
  match a with
  | none => b
  | some .null => b
  | some v => some v

/-- Strict equality `v === "lit"` between a field value and a string
literal. -/
def strictStrEq (v : Option JsVal) (lit : String) : Bool :=
  match v with
  | some (.str s) => if s = lit then true else false
  | _ => false

/-- `record.type === lit`. -/
def typeIs (v : JsVal) (lit : String) : Bool := strictStrEq (objGet v "type") lit

/-- JS falsiness of a string-or-undefined value. -/
def strFalsy (o : Option String) : Bool :=
  match o with
  | none => true
  | some s => if s = "" then true else false

/-- JS falsiness of a string-or-null-or-undefined value. -/
def strOrNullFalsy (o : Option (Option String)) : Bool :=
  match o with
  | none => true
  | some none => true
  | some (some s) => if s = "" then true else false

/-! ### Data model of the parsed metadata (bridge.ts interfaces) -/

/-- bridge.ts CodexRateLimitWindow. -/
structure CodexRateLimitWindow where
  usedPercent : ℚ
  windowMinutes : ℚ
  resetsAt : ℚ
deriving DecidableEq

/-- bridge.ts CodexCredits; balance is number-or-null. -/
structure CodexCredits where
  hasCredits : Bool
  unlimited : Bool
  balance : Option ℚ
deriving DecidableEq

/-- bridge.ts CodexRateLimits; outer Option is undefined, inner Option of
the nullable fields is null. -/
structure CodexRateLimits where
  limitId : Option String
  limitName : Option (Option String)
  primary : Option CodexRateLimitWindow
  secondary : Option CodexRateLimitWindow
  credits : Option CodexCredits
  planType : Option (Option String)
deriving DecidableEq

/-- bridge.ts CodexContextWindow. -/
structure CodexContextWindow where
  usedTokens : ℚ
  maxTokens : ℚ
  percentLeft : ℚ
deriving DecidableEq

/-! ### Output parsing (bridge.ts parseSessionId .. parseContextWindow) -/

/-- bridge.ts normalizeRateLimitWindow. -/
def normalizeRateLimitWindow (value : Option JsVal) : Option CodexRateLimitWindow :=
  match value with
  | some r =>
    if isObjectLike r then
      match asFiniteNumber (objGet r "used_percent"),
          asFiniteNumber (objGet r "window_minutes"),
          asFiniteNumber (objGet r "resets_at") with
      | some u, some w, some t => some ⟨u, w, t⟩
      | _, _, _ => none
    else none
  | none => none

/-- bridge.ts normalizeCredits. -/
def normalizeCredits (value : Option JsVal) : Option CodexCredits :=
  match value with
  | some r =>
    if isObjectLike r then
      match asBoolean (objGet r "has_credits"), asBoolean (objGet r "unlimited") with
      | some h, some u => some ⟨h, u, (asNumberOrNull (objGet r "balance")).getD none⟩
      | _, _ => none
    else none
  | none => none

/-- bridge.ts normalizeRateLimits. -/
def normalizeRateLimits (value : Option JsVal) : Option CodexRateLimits :=
  match value with
  | some r =>
    if isObjectLike r then
      let primary := normalizeRateLimitWindow (objGet r "primary")
      let secondary := normalizeRateLimitWindow (objGet r "secondary")
      let credits := normalizeCredits (objGet r "credits")
      let limitId := asString (objGet r "limit_id")
      let limitName := asStringOrNull (objGet r "limit_name")
      let planType := asStringOrNull (objGet r "plan_type")
      if primary = none ∧ secondary = none ∧ credits = none ∧ strFalsy limitId = true ∧
          strOrNullFalsy limitName = true ∧ strOrNullFalsy planType = true then none
      else some ⟨limitId, limitName, primary, secondary, credits, planType⟩
    else none
  | none => none

/-- Loop body of bridge.ts parseRateLimits for one output line. -/
def rateLimitsOfLine (line : String) : Option CodexRateLimits :=
  match parseJsonLine line with
  | some p =>
    if isObjectLike p then
      let direct := if typeIs p "token_count" then objGet p "rate_limits" else none
      let payloadRL :=
        match objGet p "payload" with
        | some pay =>
          if isObjectLike pay then
            if typeIs pay "token_count" then objGet pay "rate_limits" else none
          else none
        | none => none
      normalizeRateLimits (jsCoalesce direct payloadRL)
    else none
  | none => none

/-- bridge.ts parseRateLimits: last qualifying event wins. -/
def parseRateLimits (output : String) : Option CodexRateLimits :=
  (splitNL output).foldl (fun latest line => keepLatest latest (rateLimitsOfLine line)) none

/-- bridge.ts normalizeTokenCountInfo, as the pair
(totalTokens, maxTokens). -/
def normalizeTokenCountInfo (value : Option JsVal) : Option (ℚ × ℚ) :=
  match value with
  | some r =>
    if isObjectLike r then
      let mcw := asFiniteNumber (objGet r "model_context_window")
      let usage :=
        match objGet r "total_token_usage" with
        | some u => if isObjectLike u then some u else none
        | none => none
      let tt :=
        match usage with
        | some u => asFiniteNumber (objGet u "total_tokens")
        | none => none
      match mcw, tt with
      | some m, some t => if m ≤ 0 then none else some (t, m)
      | _, _ => none
    else none
  | none => none

/-- bridge.ts extractTokenCountInfo: the info object of a token_count
event, either top-level or under a payload of the same type. -/
def extractTokenCountInfo (event : JsVal) : Option (ℚ × ℚ) :=
  let direct := if typeIs event "token_count" then objGet event "info" else none
  let payloadInfo :=
    match objGet event "payload" with
    | some pay =>
      if isObjectLike pay then
        if typeIs pay "token_count" then objGet pay "info" else none
      else none
    | none => none
  normalizeTokenCountInfo (jsCoalesce direct payloadInfo)

/-- Loop body of bridge.ts parseContextWindow for one output line. -/
def contextWindowOfLine (line : String) : Option CodexContextWindow :=
  match parseJsonLine line with
  | some p =>
    if isObjectLike p then
      match extractTokenCountInfo p with
      | some (t, m) =>
        let usedTokens := max 0 (min t m)
        some ⟨usedTokens, m, max 0 (min 100 ((m - usedTokens) / m * 100))⟩
      | none => none
    else none
  | none => none

/-- bridge.ts parseContextWindow: last qualifying event wins. -/
def parseContextWindow (output : String) : Option CodexContextWindow :=
  (splitNL output).foldl (fun latest line => keepLatest latest (contextWindowOfLine line)) none

/-- Loop body of bridge.ts parseSessionIdFromJsonEvents for one line. -/
def threadIdOfLine (line : String) : Option String :=
  match parseJsonLine line with
  | some p =>
    if isObjectLike p then
      if asString (objGet p "type") = some "thread.started" then
        asString (objGet p "thread_id")
      else none
    else none
  | none => none

/-- bridge.ts parseSessionIdFromJsonEvents: the identifier of the last
thread.started event that carries a non-empty one. -/
def parseSessionIdFromJsonEvents (output : String) : Option String :=
  (splitNL output).foldl (fun sid line => keepLatest sid (threadIdOfLine line)) none

/-- Case-insensitive literal match, consuming the matched prefix. -/
def matchCI : List Char → List Char → Option (List Char)
  | [], cs => some cs
  | _ :: _, [] => none
  | p :: ps, c :: cs => if p.toLower = c.toLower then matchCI ps cs else none

/-- Exactly n hexadecimal digits. -/
def takeHex : Nat → List Char → Option (List Char × List Char)
  | 0, cs => some ([], cs)
  | _ + 1, [] => none
  | n + 1, c :: cs =>
    if isHexChar c then (takeHex n cs).map (fun p => (c :: p.1, p.2)) else none

/-- A literal dash. -/
def matchDash : List Char → Option (List Char)
  | c :: cs => if c = '-' then some cs else none
  | [] => none

/-- The capture group of CODEX_SESSION_ID_PATTERN: an 8-4-4-4-12
hexadecimal UUID. -/
def matchUuidAt (cs : List Char) : Option String :=
  (takeHex 8 cs).bind fun p1 =>
  (matchDash p1.2).bind fun r1 =>
  (takeHex 4 r1).bind fun p2 =>
  (matchDash p2.2).bind fun r2 =>
  (takeHex 4 r2).bind fun p3 =>
  (matchDash p3.2).bind fun r3 =>
  (takeHex 4 r3).bind fun p4 =>
  (matchDash p4.2).bind fun r4 =>
  (takeHex 12 r4).map fun p5 =>
  String.mk (p1.1 ++ '-' :: p2.1 ++ '-' :: p3.1 ++ '-' :: p4.1 ++ '-' :: p5.1)

/-- The whole pattern /session id:\s*(uuid)/i at one position. -/
def sessionIdMatchAt (cs : List Char) : Option String :=
  (matchCI "session id:".data cs).bind fun rest =>
  matchUuidAt (rest.dropWhile isJsWhitespace)

/-- CODEX_SESSION_ID_PATTERN.exec: first position where the pattern
matches. -/
def execSessionIdPattern : List Char → Option String
  | [] => none
  | c :: cs =>
    match sessionIdMatchAt (c :: cs) with
    | some u => some u
    | none => execSessionIdPattern cs

/-- bridge.ts parseSessionId: structured events first, then the plain-text
pattern. -/
def parseSessionId (stdout : String) : Option String :=
  match parseSessionIdFromJsonEvents stdout with
  | some v => some v
  | none =>
    match execSessionIdPattern stdout.data with
    | some m => if jsTrim m = "" then none else some (jsTrim m)
    | none => none

/-- bridge.ts parseAssistantReply: normalize, then take what follows the
last "\nassistant\n" marker, else a leading "assistant\n" prefix. -/
def parseAssistantReply (stdout : String) : Option String :=
  let normalized := jsTrim (removeCR stdout)
  if normalized = "" then none
  else
    match lastIndexOfSub normalized.data "\nassistant\n".data with
    | some idx =>
      let reply := jsTrim (String.mk (normalized.data.drop (idx + 11)))
      if reply = "" then none else some reply
    | none =>
      if strStartsWith normalized "assistant\n" then
        let reply := jsTrim (String.mk (normalized.data.drop 10))
        if reply = "" then none else some reply
      else none

/-- One content item of a structured assistant message: its text when the
item is an output_text/text object carrying a non-empty string. -/
def contentItemText (item : JsVal) : Option String :=
  if isObjectLike item then
    let itemType := asString (objGet item "type")
    let text :=
      match asString (objGet item "text") with
      | some t => some t
      | none => asString (objGet item "output_text")
    if itemType = some "output_text" ∨ itemType = some "text" then text else none
  else none

/-- bridge.ts parseAssistantReplyFromJsonObject. -/
def parseAssistantReplyFromJsonObject (record : JsVal) : Option String :=
  if typeIs record "agent_message" then asString (objGet record "message")
  else if typeIs record "message" then
    if strictStrEq (objGet record "role") "assistant" then
      match objGet record "content" with
      | some (.arr items) =>
        let textParts := items.filterMap contentItemText
        if textParts = [] then none
        else
          let joined := jsTrim (joinNL textParts)
          if joined = "" then none else some joined
      | _ => none
    else none
  else none

/-- Loop body of bridge.ts parseAssistantReplyFromJsonEvents for one
line: a direct reply wins over one nested under payload. -/
def replyOfLine (line : String) : Option String :=
  match parseJsonLine line with
  | some p =>
    if isObjectLike p then
      match parseAssistantReplyFromJsonObject p with
      | some r => some r
      | none =>
        match objGet p "payload" with
        | some pay => if isObjectLike pay then parseAssistantReplyFromJsonObject pay else none
        | none => none
    else none
  | none => none

/-- bridge.ts parseAssistantReplyFromJsonEvents: last matching event
wins. -/
def parseAssistantReplyFromJsonEvents (output : String) : Option String :=
  (splitNL output).foldl (fun latest line => keepLatest latest (replyOfLine line)) none

/-- bridge.ts readAssistantReply: prefer the output file's trimmed
content; a missing/empty file falls back to stream parsing.  The file
read result is modelled as an Option (none = read failed). -/
def readAssistantReply (outputFileContent : Option String) (combinedOutput : String) : Option String :=
  match outputFileContent with
  | some c => if jsTrim c = "" then parseAssistantReply combinedOutput else some (jsTrim c)
  | none => parseAssistantReply combinedOutput

/-! ### Bridge orchestration (bridge.ts CodexBridge.sendMessage*) -/

/-- session/types.ts SessionRecord. -/
structure SessionRecord where
  id : String
  projectPath : String
  title : String
  createdByUserId : String
  createdAt : String
  channelId : Option String
  codexThreadId : Option String
deriving DecidableEq

/-- bridge.ts ProcessResult. -/
structure ProcessResult where
  exitCode : Int
  stdout : String
  stderr : String
  timedOut : Bool
deriving DecidableEq

/-- bridge.ts CodexTurnResult. -/
structure CodexTurnResult where
  threadId : String
  reply : String
  rateLimits : Option CodexRateLimits
  contextWindow : Option CodexContextWindow
deriving DecidableEq

/-- The distinct failures thrown by sendMessage, keyed by throw site (the
taxonomy of spec section 7), carrying the thrown message where one is
built from the data. -/
inductive CodexError where
  | emptyPrompt
  | externalCommandFailed (message : String)
  | missingThreadId
  | missingReply
  | interactiveTimeout (message : String)
deriving DecidableEq

/-- The outcome of one sendMessage invocation: the value returned or the
error thrown, together with the argument of the setSessionCodexThreadId
store write performed (none = no write). -/
structure BridgeOutcome where
  result : Except CodexError CodexTurnResult
  threadIdWrite : Option String

/-- bridge.ts buildCodexFailureMessage: last non-empty trimmed line of
stderr, else of stdout, else a fixed fallback. -/
def nonEmptyTrimmedLines (s : String) : List String :=
  ((splitNL (jsTrim (removeCR s))).map jsTrim).filter (fun l => l != "")

/-- bridge.ts buildCodexFailureMessage. -/
def buildCodexFailureMessage (result : ProcessResult) : String :=
  let detail :=
    match (nonEmptyTrimmedLines result.stderr).getLast? with
    | some d => d
    | none =>
      match (nonEmptyTrimmedLines result.stdout).getLast? with
      | some d => d
      | none => "Codex command failed."
  "Codex command failed (exit " ++ toString result.exitCode ++ "): " ++ detail

/-- bridge.ts resolveInteractiveTimeoutMs. -/
def resolveInteractiveTimeoutMs (prompt : String) : ℚ :=
  let normalizedPrompt := toLowerStr (jsTrim prompt)
  if normalizedPrompt = "/status" then 15000
  else if normalizedPrompt = "/compact" ∨ normalizedPrompt = "/init" then 60000
  else 90000

/-- Floor of a rational, computed on the reduced fraction. -/
def ratFloor (q : ℚ) : ℤ := Int.fdiv q.num q.den

/-- JS Math.round (round half toward positive infinity). -/
def jsRound (q : ℚ) : ℤ := ratFloor (q + 1 / 2)

/-- The interactive timeout message, naming the elapsed seconds. -/
def interactiveTimeoutMessage (timeoutMs : ℚ) : String :=
  "Codex interactive command timed out after " ++ toString (jsRound (timeoutMs / 1000)) ++
    "s without an assistant reply."

/-- `[result.stdout, result.stderr].join("\n")`. -/
def combinedOutputOf (result : ProcessResult) : String :=
  result.stdout ++ "\n" ++ result.stderr

/-- `parseSessionId(out) ?? session.codexThreadId`. -/
def resolveThreadId (parsed : Option String) (recorded : Option String) : Option String :=
  match parsed with
  | some t => some t
  | none => recorded

/-- bridge.ts sendMessageViaExec, as a function of the process result and
the content of the --output-last-message file (none = unreadable). -/
def sendMessageViaExec (session : SessionRecord) (result : ProcessResult)
    (outputFileContent : Option String) : BridgeOutcome :=
  if result.exitCode ≠ 0 then
    ⟨.error (.externalCommandFailed (buildCodexFailureMessage result)), none⟩
  else
    let combinedOutput := combinedOutputOf result
    let threadId := resolveThreadId (parseSessionId combinedOutput) session.codexThreadId
    let rateLimits := parseRateLimits combinedOutput
    let contextWindow := parseContextWindow combinedOutput
    match threadId with
    | none => ⟨.error .missingThreadId, none⟩
    | some t =>
      if t = "" then ⟨.error .missingThreadId, none⟩
      else
        match readAssistantReply outputFileContent combinedOutput with
        | none => ⟨.error .missingReply, none⟩
        | some reply =>
          if reply = "" then ⟨.error .missingReply, none⟩
          else
            ⟨.ok ⟨t, reply, rateLimits, contextWindow⟩,
              if session.codexThreadId = some t then none else some t⟩

/-- The reply resolution of interactive mode: structured events from the
log delta first, then the plain-text stream. -/
def interactiveReplyOf (result : ProcessResult) (logDelta : String) : Option String :=
  match parseAssistantReplyFromJsonEvents logDelta with
  | some r => some r
  | none => parseAssistantReply (combinedOutputOf result)

/-- The failure chosen by interactive mode when no reply was found. -/
def interactiveNoReplyError (result : ProcessResult) (timeoutMs : ℚ) : CodexError :=
  if result.timedOut then .interactiveTimeout (interactiveTimeoutMessage timeoutMs)
  else if result.exitCode ≠ 0 then .externalCommandFailed (buildCodexFailureMessage result)
  else .missingReply

/-- bridge.ts sendMessageViaInteractiveSession, as a function of the
process result and the session log delta. -/
def sendMessageViaInteractiveSession (session : SessionRecord) (prompt : String)
    (result : ProcessResult) (logDelta : String) : BridgeOutcome :=
  let timeoutMs := resolveInteractiveTimeoutMs prompt
  let combinedWithLog := combinedOutputOf result ++ "\n" ++ logDelta
  let threadId := resolveThreadId (parseSessionId combinedWithLog) session.codexThreadId
  let rateLimits :=
    match parseRateLimits combinedWithLog with
    | some r => some r
    | none => parseRateLimits logDelta
  let contextWindow :=
    match parseContextWindow combinedWithLog with
    | some c => some c
    | none => parseContextWindow logDelta
  let reply := interactiveReplyOf result logDelta
  match threadId with
  | none => ⟨.error .missingThreadId, none⟩
  | some t =>
    if t = "" then ⟨.error .missingThreadId, none⟩
    else
      match reply with
      | none => ⟨.error (interactiveNoReplyError result timeoutMs), none⟩
      | some rep =>
        if rep = "" then ⟨.error (interactiveNoReplyError result timeoutMs), none⟩
        else if result.exitCode ≠ 0 ∧ result.timedOut = false then
          ⟨.error (.externalCommandFailed (buildCodexFailureMessage result)), none⟩
        else
          ⟨.ok ⟨t, rep, rateLimits, contextWindow⟩,
            if session.codexThreadId = some t then none else some t⟩

/-- bridge.ts sendMessage: empty-prompt rejection, then mode dispatch on
the trimmed prompt. -/
def sendMessage (session : SessionRecord) (prompt : String) (interactiveSession : Bool)
    (result : ProcessResult) (outputFileContent : Option String) (logDelta : String) :
    BridgeOutcome :=
  if jsTrim prompt = "" then ⟨.error .emptyPrompt, none⟩
  else if interactiveSession then
    sendMessageViaInteractiveSession session (jsTrim prompt) result logDelta
  else sendMessageViaExec session result outputFileContent

/-! ### Session log tailer (bridge.ts captureSessionLogSnapshot,
readSessionLogDelta, countFileLines) -/

/-- bridge.ts SessionLogSnapshot. -/
structure SessionLogSnapshot where
  latestFilePath : Option String
  lineCount : Nat
deriving DecidableEq

/-- The state of the log directory seen through the two filesystem
operations the tailer uses: findLatestSessionLogFile (the path of the
most recently modified .jsonl file, if any) and readFile (none = the read
failed). -/
structure LogFs where
  latest : Option String
  read : String → Option String

/-- bridge.ts countFileLines. -/
def countFileLines (fs : LogFs) (p : String) : Nat :=
  match fs.read p with
  | none => 0
  | some c => (splitNL c).length

/-- bridge.ts captureSessionLogSnapshot. -/
def captureSessionLogSnapshot (fs : LogFs) : SessionLogSnapshot :=
  match fs.latest with
  | none => ⟨none, 0⟩
  | some p => ⟨some p, countFileLines fs p⟩

/-- bridge.ts readSessionLogDelta. -/
def readSessionLogDelta (fs : LogFs) (snapshot : SessionLogSnapshot) : String :=
  match fs.latest with
  | none => ""
  | some p =>
    match fs.read p with
    | none => ""
    | some content =>
      let lines := splitNL content
      if snapshot.latestFilePath = some p then joinNL (lines.drop snapshot.lineCount)
      else joinNL lines

/-! ### Session lock manager (bridge.ts CodexBridge.withSessionLock)

The promise chaining of withSessionLock is modelled as a small-step
machine over the lifecycle of a list of calls, indexed in arrival order.
Call i carries the session id sids[i].  Arrival models the synchronous
prefix of withSessionLock (read the sessionQueue tail, chain onto it,
store the own settled promise as the new tail); start models the run
callback firing, which the chaining allows only once the awaited
predecessor promise has settled (fulfilled or rejected alike, since the
settled promise swallows both); settle records the operation's own
outcome, which withSessionLock passes through to its caller unchanged;
cleanup models the finally block, which deletes the map entry only when
it still holds this call's own settled promise. -/

/-- Lifecycle phase of one withSessionLock call. -/
inductive Phase where
  | notArrived
  | arrived
  | started
  | settled
  | cleaned
deriving DecidableEq

/-- The call's operation has settled (its promise is resolved either
way; cleanup does not un-settle it). -/
def Phase.isSettled : Phase → Bool
  | .settled => true
  | .cleaned => true
  | _ => false

/-- The call's run callback has begun. -/
def Phase.hasStarted : Phase → Bool
  | .started => true
  | .settled => true
  | .cleaned => true
  | _ => false

/-- State of the lock machine: the sessionQueue map (session id to the
index of the call whose settled promise is the current tail), the
predecessor each call chained onto at arrival, each call's phase, and
each settled call's outcome (true = fulfilled, false = rejected). -/
structure LockState where
  tail : String → Option Nat
  pred : Nat → Option Nat
  phase : Nat → Phase
  outcome : Nat → Option Bool

/-- Initial state: empty map, nobody arrived. -/
def initLockState : LockState :=
  ⟨fun _ => none, fun _ => none, fun _ => .notArrived, fun _ => none⟩

/-- The session id of call i. -/
def sidAt (sids : List String) (i : Nat) : String := sids.getD i ""

/-- Effect of the synchronous prefix of withSessionLock for call i on
session id s. -/
def arriveUpd (s : String) (i : Nat) (st : LockState) : LockState :=
  { tail := fun x => if x = s then some i else st.tail x,
    pred := fun j => if j = i then st.tail s else st.pred j,
    phase := fun j => if j = i then .arrived else st.phase j,
    outcome := st.outcome }

/-- Effect of call i's run callback starting. -/
def startUpd (i : Nat) (st : LockState) : LockState :=
  { st with phase := fun j => if j = i then .started else st.phase j }

/-- Effect of call i's operation settling with outcome b. -/
def settleUpd (i : Nat) (b : Bool) (st : LockState) : LockState :=
  { st with
    phase := fun j => if j = i then .settled else st.phase j,
    outcome := fun j => if j = i then some b else st.outcome j }

/-- Effect of call i's finally block: drop the map entry only when it is
still this call's own settled promise. -/
def cleanupUpd (s : String) (i : Nat) (st : LockState) : LockState :=
  { st with
    phase := fun j => if j = i then .cleaned else st.phase j,
    tail := fun x => if x = s then (if st.tail s = some i then none else st.tail s) else st.tail x }

/-- One step of the lock machine.  Arrivals happen in index order; a run
may start only when the promise it chained onto has settled (or it
chained onto nothing); settle and cleanup follow the phase order. -/
inductive LockStep (sids : List String) : LockState → LockState → Prop where
  | arrive (st : LockState) (i : Nat) (hlen : i < sids.length)
      (hph : st.phase i = .notArrived)
      (hprev : ∀ k, k < i → st.phase k ≠ .notArrived) :
      LockStep sids st (arriveUpd (sidAt sids i) i st)
  | start (st : LockState) (i : Nat) (hph : st.phase i = .arrived)
      (hpred : ∀ k, st.pred i = some k → (st.phase k).isSettled = true) :
      LockStep sids st (startUpd i st)
  | settle (st : LockState) (i : Nat) (b : Bool) (hph : st.phase i = .started) :
      LockStep sids st (settleUpd i b st)
  | cleanup (st : LockState) (i : Nat) (hph : st.phase i = .settled) :
      LockStep sids st (cleanupUpd (sidAt sids i) i st)

/-- Reachability from the initial state. -/
inductive LockReaches (sids : List String) : LockState → Prop where
  | init : LockReaches sids initLockState
  | step {st st' : LockState} : LockReaches sids st → LockStep sids st st' → LockReaches sids st'

/-- A settled call has started. -/
theorem Phase.isSettled_hasStarted {p : Phase} (h : p.isSettled = true) : p.hasStarted = true := by
  cases p <;> simp_all [Phase.isSettled, Phase.hasStarted]

/-- A started call has arrived. -/
theorem Phase.hasStarted_ne_notArrived {p : Phase} (h : p.hasStarted = true) :
    p ≠ Phase.notArrived := by
  cases p <;> simp_all [Phase.hasStarted]

/-- Inductive invariant of the lock machine.  `serial` is the heart: a
call that has started forces every earlier call on the same session id to
have settled already. -/
structure LockInv (sids : List String) (st : LockState) : Prop where
  len : ∀ i, st.phase i ≠ Phase.notArrived → i < sids.length
  prefixClosed : ∀ i j, i ≤ j → st.phase j ≠ Phase.notArrived → st.phase i ≠ Phase.notArrived
  tailSome : ∀ s k, st.tail s = some k → sidAt sids k = s ∧ st.phase k ≠ Phase.notArrived ∧
    ∀ m, k < m → sidAt sids m = s → st.phase m = Phase.notArrived
  tailNone : ∀ s, st.tail s = none → ∀ m, sidAt sids m = s → st.phase m ≠ Phase.notArrived →
    (st.phase m).isSettled = true
  predSome : ∀ j k, st.pred j = some k → k < j ∧ sidAt sids k = sidAt sids j ∧
    ∀ m, k < m → m < j → sidAt sids m ≠ sidAt sids j
  predNone : ∀ j, st.phase j ≠ Phase.notArrived → st.pred j = none →
    ∀ m, m < j → sidAt sids m = sidAt sids j → (st.phase m).isSettled = true
  serial : ∀ i j, i < j → sidAt sids i = sidAt sids j → (st.phase j).hasStarted = true →
    (st.phase i).isSettled = true

/-- The invariant holds initially. -/
theorem lockInv_init (sids : List String) : LockInv sids initLockState := by
  constructor
  · intro i h; exact absurd rfl h
  · intro i j _ h; exact absurd rfl h
  · intro s k h; exact Option.noConfusion h
  · intro s _ m _ h; exact absurd rfl h
  · intro j k h; exact Option.noConfusion h
  · intro j h; exact absurd rfl h
  · intro a b _ _ h; exact absurd h (by simp [initLockState, Phase.hasStarted])

/-- Preservation under an arrival. -/
theorem lockInv_arrive {sids : List String} {st : LockState} (inv : LockInv sids st)
    (i : Nat) (hlen : i < sids.length) (hph : st.phase i = Phase.notArrived)
    (hprev : ∀ k, k < i → st.phase k ≠ Phase.notArrived) :
    LockInv sids (arriveUpd (sidAt sids i) i st) := by
  constructor
  · -- len
    intro j hj
    by_cases hji : j = i
    · exact hji ▸ hlen
    · exact inv.len j (by simpa [arriveUpd, hji] using hj)
  · -- prefixClosed
    intro a b hab hb
    by_cases hai : a = i
    · subst hai; simp [arriveUpd]
    · by_cases hbi : b = i
      · subst hbi
        exact fun hc => hprev a (lt_of_le_of_ne hab hai) (by simpa [arriveUpd, hai] using hc)
      · have hb' : st.phase b ≠ Phase.notArrived := by simpa [arriveUpd, hbi] using hb
        have := inv.prefixClosed a b hab hb'
        simpa [arriveUpd, hai]
  · -- tailSome
    intro x k hk
    by_cases hxs : x = sidAt sids i
    · subst hxs
      have hki : k = i := by
        simp [arriveUpd] at hk
        omega
      subst hki
      refine ⟨rfl, by simp [arriveUpd], ?_⟩
      intro m hm hsm
      have hmi : m ≠ k := (ne_of_gt hm)
      have : st.phase m = Phase.notArrived := by
        by_contra hc
        exact absurd hph (inv.prefixClosed k m (le_of_lt hm) hc)
      simpa [arriveUpd, hmi]
    · have hk' : st.tail x = some k := by simpa [arriveUpd, hxs] using hk
      obtain ⟨h1, h2, h3⟩ := inv.tailSome x k hk'
      have hki : k ≠ i := by
        intro he; subst he; exact hxs h1.symm
      refine ⟨h1, by simpa [arriveUpd, hki], ?_⟩
      intro m hm hsm
      have hmi : m ≠ i := by
        intro he; subst he; exact hxs hsm.symm
      have := h3 m hm hsm
      simpa [arriveUpd, hmi]
  · -- tailNone
    intro x hx m hsm hm
    by_cases hxs : x = sidAt sids i
    · subst hxs; simp [arriveUpd] at hx
    · have hx' : st.tail x = none := by simpa [arriveUpd, hxs] using hx
      have hmi : m ≠ i := by
        intro he; subst he; exact hxs hsm.symm
      have hm' : st.phase m ≠ Phase.notArrived := by simpa [arriveUpd, hmi] using hm
      have := inv.tailNone x hx' m hsm hm'
      simpa [arriveUpd, hmi]
  · -- predSome
    intro j k hjk
    by_cases hji : j = i
    · subst hji
      have hk : st.tail (sidAt sids j) = some k := by simpa [arriveUpd] using hjk
      obtain ⟨h1, h2, h3⟩ := inv.tailSome _ k hk
      have hkj : k < j := by
        rcases lt_trichotomy k j with h | h | h
        · exact h
        · exact absurd (h ▸ hph) h2
        · exact absurd hph (inv.prefixClosed j k (le_of_lt h) h2)
      refine ⟨hkj, h1, ?_⟩
      intro m hkm hmj heq
      exact hprev m hmj (h3 m hkm heq)
    · have hjk' : st.pred j = some k := by simpa [arriveUpd, hji] using hjk
      exact inv.predSome j k hjk'
  · -- predNone
    intro j hj hpredj m hm hsm
    by_cases hji : j = i
    · subst hji
      have hx : st.tail (sidAt sids j) = none := by simpa [arriveUpd] using hpredj
      have hmi : m ≠ j := ne_of_lt hm
      have := inv.tailNone _ hx m hsm (hprev m hm)
      simpa [arriveUpd, hmi]
    · have hj' : st.phase j ≠ Phase.notArrived := by simpa [arriveUpd, hji] using hj
      have hpredj' : st.pred j = none := by simpa [arriveUpd, hji] using hpredj
      have hres := inv.predNone j hj' hpredj' m hm hsm
      by_cases hmi : m = i
      · subst hmi
        rw [hph] at hres
        exact absurd hres (by simp [Phase.isSettled])
      · simpa [arriveUpd, hmi] using hres
  · -- serial
    intro a b hab hsab hbst
    by_cases hbi : b = i
    · subst hbi
      exact absurd hbst (by simp [arriveUpd, Phase.hasStarted])
    · have hbst' : (st.phase b).hasStarted = true := by simpa [arriveUpd, hbi] using hbst
      by_cases hai : a = i
      · subst hai
        exact absurd hph
          (inv.prefixClosed a b (le_of_lt hab) (Phase.hasStarted_ne_notArrived hbst'))
      · have := inv.serial a b hab hsab hbst'
        simpa [arriveUpd, hai]

/-- Preservation under a run starting. -/
theorem lockInv_start {sids : List String} {st : LockState} (inv : LockInv sids st)
    (i : Nat) (hph : st.phase i = Phase.arrived)
    (hpred : ∀ k, st.pred i = some k → (st.phase k).isSettled = true) :
    LockInv sids (startUpd i st) := by
  have hnai : st.phase i ≠ Phase.notArrived := by rw [hph]; simp
  constructor
  · -- len
    intro j hj
    by_cases hji : j = i
    · exact hji ▸ inv.len i hnai
    · exact inv.len j (by simpa [startUpd, hji] using hj)
  · -- prefixClosed
    intro a b hab hb
    have hb' : st.phase b ≠ Phase.notArrived := by
      by_cases hbi : b = i
      · exact hbi ▸ hnai
      · simpa [startUpd, hbi] using hb
    have := inv.prefixClosed a b hab hb'
    by_cases hai : a = i
    · subst hai; simp [startUpd]
    · simpa [startUpd, hai]
  · -- tailSome
    intro x k hk
    obtain ⟨h1, h2, h3⟩ := inv.tailSome x k hk
    refine ⟨h1, ?_, ?_⟩
    · by_cases hki : k = i
      · subst hki; simp [startUpd]
      · simpa [startUpd, hki]
    · intro m hm hsm
      have := h3 m hm hsm
      by_cases hmi : m = i
      · subst hmi; exact absurd this hnai
      · simpa [startUpd, hmi]
  · -- tailNone
    intro x hx m hsm hm
    by_cases hmi : m = i
    · subst hmi
      have := inv.tailNone x hx m hsm hnai
      rw [hph] at this
      exact absurd this (by simp [Phase.isSettled])
    · have hm' : st.phase m ≠ Phase.notArrived := by simpa [startUpd, hmi] using hm
      have := inv.tailNone x hx m hsm hm'
      simpa [startUpd, hmi]
  · -- predSome
    intro j k hjk
    exact inv.predSome j k hjk
  · -- predNone
    intro j hj hpredj m hm hsm
    have hj' : st.phase j ≠ Phase.notArrived := by
      by_cases hji : j = i
      · exact hji ▸ hnai
      · simpa [startUpd, hji] using hj
    have hres := inv.predNone j hj' hpredj m hm hsm
    by_cases hmi : m = i
    · subst hmi
      rw [hph] at hres
      exact absurd hres (by simp [Phase.isSettled])
    · simpa [startUpd, hmi] using hres
  · -- serial
    intro a b hab hsab hbst
    by_cases hbi : b = i
    · subst hbi
      have hai : a ≠ b := ne_of_lt hab
      cases hp : st.pred b with
      | some k =>
        obtain ⟨hkb, hsk, hgap⟩ := inv.predSome b k hp
        have hks : (st.phase k).isSettled = true := hpred k hp
        rcases lt_trichotomy a k with h | h | h
        · have := inv.serial a k h (hsab.trans hsk.symm) (Phase.isSettled_hasStarted hks)
          have hak : a ≠ b := ne_of_lt hab
          simpa [startUpd, ne_of_lt (lt_trans h hkb)]
        · subst h
          simpa [startUpd, ne_of_lt hkb] using hks
        · exact absurd hsab (hgap a h hab)
      | none =>
        have := inv.predNone b hnai hp a hab hsab
        simpa [startUpd, hai]
    · have hbst' : (st.phase b).hasStarted = true := by simpa [startUpd, hbi] using hbst
      have hres := inv.serial a b hab hsab hbst'
      by_cases hai : a = i
      · subst hai
        rw [hph] at hres
        exact absurd hres (by simp [Phase.isSettled])
      · simpa [startUpd, hai] using hres

/-- Preservation under an operation settling. -/
theorem lockInv_settle {sids : List String} {st : LockState} (inv : LockInv sids st)
    (i : Nat) (b : Bool) (hph : st.phase i = Phase.started) :
    LockInv sids (settleUpd i b st) := by
  have hnai : st.phase i ≠ Phase.notArrived := by rw [hph]; simp
  constructor
  · -- len
    intro j hj
    by_cases hji : j = i
    · exact hji ▸ inv.len i hnai
    · exact inv.len j (by simpa [settleUpd, hji] using hj)
  · -- prefixClosed
    intro a c hac hc
    have hc' : st.phase c ≠ Phase.notArrived := by
      by_cases hci : c = i
      · exact hci ▸ hnai
      · simpa [settleUpd, hci] using hc
    have := inv.prefixClosed a c hac hc'
    by_cases hai : a = i
    · subst hai; simp [settleUpd]
    · simpa [settleUpd, hai]
  · -- tailSome
    intro x k hk
    obtain ⟨h1, h2, h3⟩ := inv.tailSome x k hk
    refine ⟨h1, ?_, ?_⟩
    · by_cases hki : k = i
      · subst hki; simp [settleUpd]
      · simpa [settleUpd, hki]
    · intro m hm hsm
      have := h3 m hm hsm
      by_cases hmi : m = i
      · subst hmi; exact absurd this hnai
      · simpa [settleUpd, hmi]
  · -- tailNone
    intro x hx m hsm hm
    by_cases hmi : m = i
    · subst hmi; simp [settleUpd, Phase.isSettled]
    · have hm' : st.phase m ≠ Phase.notArrived := by simpa [settleUpd, hmi] using hm
      have := inv.tailNone x hx m hsm hm'
      simpa [settleUpd, hmi]
  · -- predSome
    intro j k hjk
    exact inv.predSome j k hjk
  · -- predNone
    intro j hj hpredj m hm hsm
    by_cases hmi : m = i
    · subst hmi; simp [settleUpd, Phase.isSettled]
    · have hj' : st.phase j ≠ Phase.notArrived := by
        by_cases hji : j = i
        · exact hji ▸ hnai
        · simpa [settleUpd, hji] using hj
      have := inv.predNone j hj' hpredj m hm hsm
      simpa [settleUpd, hmi]
  · -- serial
    intro a c hac hsac hcst
    have hcst' : (st.phase c).hasStarted = true := by
      by_cases hci : c = i
      · subst hci; rw [hph]; simp [Phase.hasStarted]
      · simpa [settleUpd, hci] using hcst
    have hres := inv.serial a c hac hsac hcst'
    by_cases hai : a = i
    · subst hai
      rw [hph] at hres
      exact absurd hres (by simp [Phase.isSettled])
    · simpa [settleUpd, hai] using hres

/-- Preservation under a finally-block cleanup. -/
theorem lockInv_cleanup {sids : List String} {st : LockState} (inv : LockInv sids st)
    (i : Nat) (hph : st.phase i = Phase.settled) :
    LockInv sids (cleanupUpd (sidAt sids i) i st) := by
  have hnai : st.phase i ≠ Phase.notArrived := by rw [hph]; simp
  constructor
  · -- len
    intro j hj
    by_cases hji : j = i
    · exact hji ▸ inv.len i hnai
    · exact inv.len j (by simpa [cleanupUpd, hji] using hj)
  · -- prefixClosed
    intro a c hac hc
    have hc' : st.phase c ≠ Phase.notArrived := by
      by_cases hci : c = i
      · exact hci ▸ hnai
      · simpa [cleanupUpd, hci] using hc
    have := inv.prefixClosed a c hac hc'
    by_cases hai : a = i
    · subst hai; simp [cleanupUpd]
    · simpa [cleanupUpd, hai]
  · -- tailSome
    intro x k hk
    have hk' : st.tail x = some k := by
      by_cases hxs : x = sidAt sids i
      · subst hxs
        by_cases htl : st.tail (sidAt sids i) = some i
        · simp [cleanupUpd, htl] at hk
        · simpa [cleanupUpd, htl] using hk
      · simpa [cleanupUpd, hxs] using hk
    obtain ⟨h1, h2, h3⟩ := inv.tailSome x k hk'
    refine ⟨h1, ?_, ?_⟩
    · by_cases hki : k = i
      · subst hki; simp [cleanupUpd]
      · simpa [cleanupUpd, hki]
    · intro m hm hsm
      have := h3 m hm hsm
      by_cases hmi : m = i
      · subst hmi; exact absurd this hnai
      · simpa [cleanupUpd, hmi]
  · -- tailNone
    intro x hx m hsm hm
    by_cases hmi : m = i
    · subst hmi; simp [cleanupUpd, Phase.isSettled]
    · have hm' : st.phase m ≠ Phase.notArrived := by simpa [cleanupUpd, hmi] using hm
      by_cases hxs : x = sidAt sids i
      · subst hxs
        by_cases htl : st.tail (sidAt sids i) = some i
        · -- the entry was deleted: m is an earlier same-session call
          obtain ⟨h1, h2, h3⟩ := inv.tailSome _ i htl
          have hmlt : m < i := by
            rcases lt_trichotomy m i with h | h | h
            · exact h
            · exact absurd h hmi
            · exact absurd (h3 m h hsm) hm'
          have := inv.serial m i hmlt hsm (by rw [hph]; simp [Phase.hasStarted])
          simpa [cleanupUpd, hmi]
        · have hx' : st.tail (sidAt sids i) = none := by simpa [cleanupUpd, htl] using hx
          have := inv.tailNone _ hx' m hsm hm'
          simpa [cleanupUpd, hmi]
      · have hx' : st.tail x = none := by simpa [cleanupUpd, hxs] using hx
        have := inv.tailNone x hx' m hsm hm'
        simpa [cleanupUpd, hmi]
  · -- predSome
    intro j k hjk
    exact inv.predSome j k hjk
  · -- predNone
    intro j hj hpredj m hm hsm
    by_cases hmi : m = i
    · subst hmi; simp [cleanupUpd, Phase.isSettled]
    · have hj' : st.phase j ≠ Phase.notArrived := by
        by_cases hji : j = i
        · exact hji ▸ hnai
        · simpa [cleanupUpd, hji] using hj
      have := inv.predNone j hj' hpredj m hm hsm
      simpa [cleanupUpd, hmi]
  · -- serial
    intro a c hac hsac hcst
    by_cases hai : a = i
    · subst hai; simp [cleanupUpd, Phase.isSettled]
    · have hcst' : (st.phase c).hasStarted = true := by
        by_cases hci : c = i
        · subst hci; rw [hph]; simp [Phase.hasStarted]
        · simpa [cleanupUpd, hci] using hcst
      have := inv.serial a c hac hsac hcst'
      simpa [cleanupUpd, hai]

/-- The invariant is preserved by every step. -/
theorem lockInv_step {sids : List String} {st st' : LockState} (inv : LockInv sids st)
    (h : LockStep sids st st') : LockInv sids st' := by
  cases h with
  | arrive i hlen hph hprev => exact lockInv_arrive inv i hlen hph hprev
  | start i hph hpred => exact lockInv_start inv i hph hpred
  | settle i b hph => exact lockInv_settle inv i b hph
  | cleanup i hph => exact lockInv_cleanup inv i hph

/-- The invariant holds in every reachable state. -/
theorem lockInv_reaches {sids : List String} {st : LockState} (h : LockReaches sids st) :
    LockInv sids st := by
  induction h with
  | init => exact lockInv_init sids
  | step _ hstep ih => exact lockInv_step ih hstep

/-! ### Characterization lemmas for the last-wins loops and the line
splitter -/

/-- A last-wins fold is the fold of the mapped options. -/
theorem foldl_lastSome {α β : Type} (f : β → Option α) (l : List β) (init : Option α) :
    l.foldl (fun acc x => keepLatest acc (f x)) init = (l.map f).foldl keepLatest init := by
  induction l generalizing init with
  | nil => rfl
  | cons x xs ih => simp only [List.foldl, List.map]; exact ih _

/-- A last-wins fold over lines with no hit returns its initial value. -/
theorem foldl_lastSome_const {α β : Type} (f : β → Option α) (l : List β) (init : Option α)
    (h : ∀ x ∈ l, f x = none) :
    l.foldl (fun acc x => keepLatest acc (f x)) init = init := by
  induction l generalizing init with
  | nil => rfl
  | cons x xs ih =>
    have hx : f x = none := h x (by simp)
    simp only [List.foldl, hx, keepLatest]
    exact ih init (fun y hy => h y (by simp [hy]))

/-- If a last-wins fold yields nothing, no element yielded anything. -/
theorem foldl_lastSome_none {α β : Type} (f : β → Option α) (l : List β) (init : Option α)
    (h : l.foldl (fun acc x => keepLatest acc (f x)) init = none) :
    ∀ x ∈ l, f x = none := by
  induction l generalizing init with
  | nil => intro x hx; exact absurd hx (by simp)
  | cons y ys ih =>
    intro x hx
    simp only [List.foldl] at h
    rcases List.mem_cons.mp hx with hxy | hxys
    · subst hxy
      cases hfy : f x with
      | none => rfl
      | some v =>
        rw [hfy] at h
        by_cases hall : ∀ z ∈ ys, f z = none
        · rw [show keepLatest init (some v) = some v from rfl,
            foldl_lastSome_const f ys (some v) hall] at h
          exact Option.noConfusion h
        · push_neg at hall
          obtain ⟨z, hz, hfz⟩ := hall
          exact absurd (ih _ h z hz) hfz
    · exact ih _ h x hxys

/-- String.mk distributes over list append. -/
theorem strMk_append (a b : List Char) : String.mk a ++ String.mk b = String.mk (a ++ b) := rfl

/-- Data of an appended string. -/
theorem strData_append (a b : String) : (a ++ b).data = a.data ++ b.data := by
  cases a; cases b; rfl

/-- A string is the String.mk of its data. -/
theorem strMk_data (s : String) : String.mk s.data = s := by cases s; rfl

/-- The splitter never returns an empty list. -/
theorem splitNLAux_ne_nil (cs acc : List Char) : splitNLAux cs acc ≠ [] := by
  induction cs generalizing acc with
  | nil => simp [splitNLAux]
  | cons c cs ih =>
    by_cases hc : c = '\n'
    · subst hc; simp [splitNLAux]
    · simpa [splitNLAux, hc] using ih (c :: acc)

/-- joinNL of a cons with a non-empty tail. -/
theorem joinNL_cons {x : String} {l : List String} (h : l ≠ []) :
    joinNL (x :: l) = x ++ "\n" ++ joinNL l := by
  cases l with
  | nil => exact absurd rfl h
  | cons y ys => rfl

/-- Splitting distributes over an explicit newline. -/
theorem splitNLAux_append (a b acc : List Char) :
    splitNLAux (a ++ '\n' :: b) acc = splitNLAux a acc ++ splitNLAux b [] := by
  induction a generalizing acc with
  | nil => simp [splitNLAux]
  | cons c cs ih =>
    by_cases hc : c = '\n'
    · subst hc; simp [splitNLAux, ih]
    · simp [splitNLAux, hc, ih]

/-- Joining undoes splitting (worker version). -/
theorem joinNL_splitNLAux (cs acc : List Char) :
    joinNL (splitNLAux cs acc) = String.mk (acc.reverse ++ cs) := by
  induction cs generalizing acc with
  | nil => simp [splitNLAux, joinNL]
  | cons c cs ih =>
    by_cases hc : c = '\n'
    · subst hc
      rw [show splitNLAux ('\n' :: cs) acc = String.mk acc.reverse :: splitNLAux cs [] from by
          simp [splitNLAux],
        joinNL_cons (splitNLAux_ne_nil cs []), ih []]
      rw [show ("\n" : String) = String.mk ['\n'] from rfl, strMk_append, strMk_append]
      simp
    · rw [show splitNLAux (c :: cs) acc = splitNLAux cs (c :: acc) from by simp [splitNLAux, hc],
        ih (c :: acc)]
      simp

/-- Joining undoes splitting. -/
theorem joinNL_splitNL (s : String) : joinNL (splitNL s) = s := by
  rw [splitNL, joinNL_splitNLAux]
  simp [strMk_data]

/-- Splitting distributes over appending a newline and more content. -/
theorem splitNL_append (a b : String) : splitNL (a ++ "\n" ++ b) = splitNL a ++ splitNL b := by
  have h : (a ++ "\n" ++ b).data = a.data ++ '\n' :: b.data := by
    rw [strData_append, strData_append, show "\n".data = ['\n'] from rfl]
    simp
  rw [splitNL, h, splitNLAux_append]
  rfl

/-! ### Claim theorems -/

/-- C5: for every token_count event whose info carries a finite
model_context_window M > 0 and finite total_token_usage.total_tokens T,
parseContextWindow derives usedTokens = clamp(T, 0, M), maxTokens = M and
percentLeft = clamp(((M - usedTokens) / M) * 100, 0, 100); M = 1000,
T = 250 yields \x7busedTokens 250, maxTokens 1000, percentLeft 75\x7d and
T = 1500 yields usedTokens 1000 and percentLeft 0; an event with M ≤ 0 or
a non-finite field yields no snapshot, and the last qualifying event in
line order wins. -/
theorem c5_parseContextWindow_clamps_and_lastWins :
    (∀ output : String,
      parseContextWindow output = lastSome ((splitNL output).map contextWindowOfLine)) ∧
    (∀ (info u : JsVal) (m t : ℚ), isObjectLike info = true →
      objGet info "model_context_window" = some (.num (.fin m)) →
      objGet info "total_token_usage" = some u → isObjectLike u = true →
      objGet u "total_tokens" = some (.num (.fin t)) → 0 < m →
      normalizeTokenCountInfo (some info) = some (t, m)) ∧
    (∀ (line : String) (e : JsVal) (t m : ℚ),
      parseJsonLine line = some e → isObjectLike e = true →
      extractTokenCountInfo e = some (t, m) →
      contextWindowOfLine line =
        some ⟨max 0 (min t m), m, max 0 (min 100 ((m - max 0 (min t m)) / m * 100))⟩) ∧
    (∀ (info : JsVal) (m : ℚ), asFiniteNumber (objGet info "model_context_window") = some m →
      m ≤ 0 → normalizeTokenCountInfo (some info) = none) ∧
    (∀ (info : JsVal) (b : Bool), objGet info "model_context_window" = some (.num (.inf b)) →
      normalizeTokenCountInfo (some info) = none) ∧
    (∀ (info u : JsVal) (b : Bool), objGet info "total_token_usage" = some u →
      objGet u "total_tokens" = some (.num (.inf b)) →
      normalizeTokenCountInfo (some info) = none) ∧
    parseContextWindow "\x7b\"type\":\"token_count\",\"info\":\x7b\"model_context_window\":1000,\"total_token_usage\":\x7b\"total_tokens\":250\x7d\x7d\x7d"
      = some ⟨250, 1000, 75⟩ ∧
    parseContextWindow "\x7b\"type\":\"token_count\",\"info\":\x7b\"model_context_window\":1000,\"total_token_usage\":\x7b\"total_tokens\":1500\x7d\x7d\x7d"
      = some ⟨1000, 1000, 0⟩ := by
  refine ⟨?_, ?_, ?_, ?_, ?_, ?_, by decide, by decide⟩
  · intro output
    unfold parseContextWindow lastSome
    exact foldl_lastSome contextWindowOfLine (splitNL output) none
  · intro info u m t hobj hmcw husage huobj htt hpos
    simp [normalizeTokenCountInfo, hobj, hmcw, husage, huobj, htt, asFiniteNumber,
      show ¬(m ≤ 0) from not_le.mpr hpos]
  · intro line e t m hline hobj hext
    simp [contextWindowOfLine, hline, hobj, hext]
  · intro info m hmcw hle
    cases hio : isObjectLike info
    · simp [normalizeTokenCountInfo, hio]
    · simp only [normalizeTokenCountInfo, hio, if_true]
      rw [hmcw]
      rcases hu : objGet info "total_token_usage" with _ | u
      · simp
      · cases huo : isObjectLike u
        · simp [huo]
        · simp only [huo, if_true]
          rcases htt : asFiniteNumber (objGet u "total_tokens") with _ | t
          · simp
          · simp [hle]
  · intro info b hmcw
    cases hio : isObjectLike info
    · simp [normalizeTokenCountInfo, hio]
    · simp only [normalizeTokenCountInfo, hio, if_true]
      rw [hmcw]
      simp [asFiniteNumber]
  · intro info u b husage htt
    cases hio : isObjectLike info
    · simp [normalizeTokenCountInfo, hio]
    · simp only [normalizeTokenCountInfo, hio, if_true]
      rw [husage]
      cases huo : isObjectLike u
      · simp [huo]
      · simp only [huo, if_true]
        rw [htt]
        simp [asFiniteNumber]

/-- The parsed event of the C5 witness line. -/
def c5EventVal : JsVal :=
  .obj [("type", .str "token_count"),
    ("info", .obj [("model_context_window", .num (.fin 1000)),
      ("total_token_usage", .obj [("total_tokens", .num (.fin 250))])])]

/-- Witness for C5 at the concrete 1000/250 event. -/
theorem c5_parseContextWindow_clamps_and_lastWins_witness :
    contextWindowOfLine "\x7b\"type\":\"token_count\",\"info\":\x7b\"model_context_window\":1000,\"total_token_usage\":\x7b\"total_tokens\":250\x7d\x7d\x7d"
      = some ⟨max 0 (min 250 1000), 1000,
          max 0 (min 100 ((1000 - max 0 (min (250 : ℚ) 1000)) / 1000 * 100))⟩ :=
  c5_parseContextWindow_clamps_and_lastWins.2.2.1
    "\x7b\"type\":\"token_count\",\"info\":\x7b\"model_context_window\":1000,\"total_token_usage\":\x7b\"total_tokens\":250\x7d\x7d\x7d"
    c5EventVal 250 1000 (by rfl) (by rfl) (by decide)

/-- C6: parseRateLimits keeps the snapshot of the last token_count event
(top-level or nested under a payload of the same type) carrying a
rate_limits object; a primary/secondary window with a missing or
non-finite used_percent, window_minutes or resets_at, or a credits object
whose has_credits or unlimited is not a strict boolean, is omitted
without discarding the other fields; none is returned only when no line
yields any field; two events with primary.used_percent 40 then 45 yield a
final usedPercent of 45. -/
theorem c6_parseRateLimits_lastWins_and_degrades :
    (∀ output : String,
      parseRateLimits output = lastSome ((splitNL output).map rateLimitsOfLine)) ∧
    (∀ w : JsVal,
      (asFiniteNumber (objGet w "used_percent") = none ∨
        asFiniteNumber (objGet w "window_minutes") = none ∨
        asFiniteNumber (objGet w "resets_at") = none) →
      normalizeRateLimitWindow (some w) = none) ∧
    (∀ c : JsVal,
      (asBoolean (objGet c "has_credits") = none ∨ asBoolean (objGet c "unlimited") = none) →
      normalizeCredits (some c) = none) ∧
    (∀ (r : JsVal) (w : CodexRateLimitWindow), isObjectLike r = true →
      normalizeRateLimitWindow (objGet r "primary") = none →
      normalizeRateLimitWindow (objGet r "secondary") = some w →
      normalizeRateLimits (some r) =
        some ⟨asString (objGet r "limit_id"), asStringOrNull (objGet r "limit_name"),
          none, some w, normalizeCredits (objGet r "credits"),
          asStringOrNull (objGet r "plan_type")⟩) ∧
    (∀ output : String, parseRateLimits output = none →
      ∀ line ∈ splitNL output, rateLimitsOfLine line = none) ∧
    parseRateLimits ("\x7b\"type\":\"token_count\",\"rate_limits\":\x7b\"primary\":\x7b\"used_percent\":40,\"window_minutes\":300,\"resets_at\":1700000000\x7d\x7d\x7d"
        ++ "\n" ++ "\x7b\"type\":\"token_count\",\"rate_limits\":\x7b\"primary\":\x7b\"used_percent\":45,\"window_minutes\":300,\"resets_at\":1700000000\x7d\x7d\x7d")
      = some ⟨none, none, some ⟨45, 300, 1700000000⟩, none, none, none⟩ := by
  refine ⟨?_, ?_, ?_, ?_, ?_, by decide⟩
  · intro output
    unfold parseRateLimits lastSome
    exact foldl_lastSome rateLimitsOfLine (splitNL output) none
  · intro w h
    cases hio : isObjectLike w
    · simp [normalizeRateLimitWindow, hio]
    · simp only [normalizeRateLimitWindow, hio, if_true]
      rcases hu : asFiniteNumber (objGet w "used_percent") with _ | u <;>
        rcases hw : asFiniteNumber (objGet w "window_minutes") with _ | wm <;>
        rcases ht : asFiniteNumber (objGet w "resets_at") with _ | t <;>
        simp_all
  · intro c h
    cases hio : isObjectLike c
    · simp [normalizeCredits, hio]
    · simp only [normalizeCredits, hio, if_true]
      rcases hh : asBoolean (objGet c "has_credits") with _ | hc <;>
        rcases hu : asBoolean (objGet c "unlimited") with _ | un <;>
        simp_all
  · intro r w hobj hprim hsec
    simp [normalizeRateLimits, hobj, hprim, hsec]
  · intro output h line hline
    unfold parseRateLimits at h
    exact foldl_lastSome_none rateLimitsOfLine (splitNL output) none h line hline

/-- A rate_limits object whose primary is invalid but whose secondary is
a valid window, for the C6 witness. -/
def c6RateLimitsVal : JsVal :=
  .obj [("primary", .num (.fin 1)),
    ("secondary", .obj [("used_percent", .num (.fin 10)), ("window_minutes", .num (.fin 60)),
      ("resets_at", .num (.fin 1700000000))])]

/-- Witness for C6: an invalid primary window is omitted without
discarding the valid secondary window. -/
theorem c6_parseRateLimits_lastWins_and_degrades_witness :
    normalizeRateLimits (some c6RateLimitsVal) =
      some ⟨asString (objGet c6RateLimitsVal "limit_id"),
        asStringOrNull (objGet c6RateLimitsVal "limit_name"),
        none, some ⟨10, 60, 1700000000⟩,
        normalizeCredits (objGet c6RateLimitsVal "credits"),
        asStringOrNull (objGet c6RateLimitsVal "plan_type")⟩ :=
  c6_parseRateLimits_lastWins_and_degrades.2.2.2.1 c6RateLimitsVal ⟨10, 60, 1700000000⟩
    (by rfl) (by decide) (by decide)

/-- C7 counterexample: the marker "\nassistant\n" occurs in the raw
stream "x\nassistant\n", yet with no output-file content the resolved
reply is undefined rather than the (empty) trimmed text after the last
occurrence — trimming happens before the marker search and an empty
extraction yields no reply. -/
theorem c7_reply_resolution_counterexample :
    containsSub "x\nassistant\n".data "\nassistant\n".data = true ∧
    readAssistantReply none "x\nassistant\n" = none := ⟨by decide, by decide⟩

/-- C7 (amended): with N the combined stream stripped of carriage returns
and trimmed — non-empty trimmed output-file content is the reply;
otherwise, if "\nassistant\n" occurs in N the reply is everything after
its last occurrence, trimmed, with an empty remainder meaning no reply;
otherwise a leading "assistant\n" yields the trimmed remainder if
non-empty; otherwise no reply.  "...\nassistant\nHello there\n" yields
"Hello there"; no marker and no file content yields none. -/
theorem c7_reply_resolution_amended :
    (∀ (combined c : String), jsTrim c ≠ "" →
      readAssistantReply (some c) combined = some (jsTrim c)) ∧
    (∀ combined : String, readAssistantReply none combined = parseAssistantReply combined) ∧
    (∀ (combined c : String), jsTrim c = "" →
      readAssistantReply (some c) combined = parseAssistantReply combined) ∧
    (∀ (s : String) (idx : Nat),
      lastIndexOfSub (jsTrim (removeCR s)).data "\nassistant\n".data = some idx →
      parseAssistantReply s =
        (if jsTrim (String.mk ((jsTrim (removeCR s)).data.drop (idx + 11))) = "" then none
         else some (jsTrim (String.mk ((jsTrim (removeCR s)).data.drop (idx + 11)))))) ∧
    (∀ s : String,
      lastIndexOfSub (jsTrim (removeCR s)).data "\nassistant\n".data = none →
      strStartsWith (jsTrim (removeCR s)) "assistant\n" = true →
      parseAssistantReply s =
        (if jsTrim (String.mk ((jsTrim (removeCR s)).data.drop 10)) = "" then none
         else some (jsTrim (String.mk ((jsTrim (removeCR s)).data.drop 10))))) ∧
    (∀ s : String,
      lastIndexOfSub (jsTrim (removeCR s)).data "\nassistant\n".data = none →
      strStartsWith (jsTrim (removeCR s)) "assistant\n" = false →
      parseAssistantReply s = none) ∧
    parseAssistantReply "...\nassistant\nHello there\n" = some "Hello there" ∧
    readAssistantReply none "no marker here" = none := by
  refine ⟨?_, ?_, ?_, ?_, ?_, ?_, by decide, by decide⟩
  · intro combined c h
    simp [readAssistantReply, h]
  · intro combined
    rfl
  · intro combined c h
    simp [readAssistantReply, h]
  · intro s idx h
    by_cases hn : jsTrim (removeCR s) = ""
    · rw [hn, show lastIndexOfSub ("" : String).data "\nassistant\n".data = none from by decide]
        at h
      exact Option.noConfusion h
    · simp [parseAssistantReply, hn, h]
  · intro s h hs
    by_cases hn : jsTrim (removeCR s) = ""
    · rw [hn] at hs
      exact absurd hs (by decide)
    · simp [parseAssistantReply, hn, h, hs]
  · intro s h hs
    by_cases hn : jsTrim (removeCR s) = ""
    · simp [parseAssistantReply, hn]
    · simp [parseAssistantReply, hn, h, hs]

/-- Witness for the amended C7 at a concrete marker occurrence. -/
theorem c7_reply_resolution_amended_witness :
    parseAssistantReply "a\nassistant\nHi" =
      (if jsTrim (String.mk ((jsTrim (removeCR "a\nassistant\nHi")).data.drop (1 + 11))) = ""
       then none
       else some (jsTrim (String.mk ((jsTrim (removeCR "a\nassistant\nHi")).data.drop (1 + 11))))) :=
  c7_reply_resolution_amended.2.2.2.1 "a\nassistant\nHi" 1 (by decide)

/-- C8: parseSessionId returns the identifier of the most recent
thread.started JSON line carrying a non-empty identifier (later events
override earlier ones); only when no structured event yields one does it
fall back to the plain-text "session id: uuid" pattern, and it returns
none when neither strategy finds an identifier. -/
theorem c8_parseSessionId_precedence :
    (∀ output : String,
      parseSessionIdFromJsonEvents output = lastSome ((splitNL output).map threadIdOfLine)) ∧
    (∀ (output : String) (v : String), parseSessionIdFromJsonEvents output = some v →
      parseSessionId output = some v) ∧
    (∀ output : String, parseSessionIdFromJsonEvents output = none →
      parseSessionId output =
        (match execSessionIdPattern output.data with
         | some m => if jsTrim m = "" then none else some (jsTrim m)
         | none => none)) ∧
    (∀ output : String, parseSessionIdFromJsonEvents output = none →
      execSessionIdPattern output.data = none → parseSessionId output = none) ∧
    parseSessionId ("\x7b\"type\":\"thread.started\",\"thread_id\":\"first-id\"\x7d" ++ "\n"
        ++ "\x7b\"type\":\"thread.started\",\"thread_id\":\"second-id\"\x7d")
      = some "second-id" ∧
    parseSessionId "[codex] session id: 123e4567-e89b-12d3-a456-426614174000 ok"
      = some "123e4567-e89b-12d3-a456-426614174000" ∧
    parseSessionId "no identifier anywhere" = none := by
  refine ⟨?_, ?_, ?_, ?_, by decide, by decide, by decide⟩
  · intro output
    unfold parseSessionIdFromJsonEvents lastSome
    exact foldl_lastSome threadIdOfLine (splitNL output) none
  · intro output v h
    simp [parseSessionId, h]
  · intro output h
    simp [parseSessionId, h]
  · intro output h hp
    simp [parseSessionId, h, hp]

/-- Witness for C8: the structured-event identifier takes precedence. -/
theorem c8_parseSessionId_precedence_witness :
    parseSessionId ("\x7b\"type\":\"thread.started\",\"thread_id\":\"first-id\"\x7d" ++ "\n"
        ++ "\x7b\"type\":\"thread.started\",\"thread_id\":\"second-id\"\x7d")
      = some "second-id" :=
  c8_parseSessionId_precedence.2.1
    ("\x7b\"type\":\"thread.started\",\"thread_id\":\"first-id\"\x7d" ++ "\n"
      ++ "\x7b\"type\":\"thread.started\",\"thread_id\":\"second-id\"\x7d")
    "second-id" (by decide)

/-! ### Branch characterizations of the two sendMessage paths -/

/-- A string-or-undefined value is undefined, empty, or non-empty. -/
theorem optionStr_trichotomy (o : Option String) :
    o = none ∨ o = some "" ∨ ∃ t, o = some t ∧ t ≠ "" := by
  rcases o with _ | t
  · exact Or.inl rfl
  · by_cases h : t = ""
    · exact Or.inr (Or.inl (by rw [h]))
    · exact Or.inr (Or.inr ⟨t, rfl, h⟩)

/-- Batch mode on a nonzero exit. -/
theorem exec_eq_exitFail (session : SessionRecord) (result : ProcessResult)
    (file : Option String) (hex : result.exitCode ≠ 0) :
    sendMessageViaExec session result file =
      ⟨.error (.externalCommandFailed (buildCodexFailureMessage result)), none⟩ := by
  simp [sendMessageViaExec, hex]

/-- Batch mode when no thread id is resolved. -/
theorem exec_eq_threadFalsy (session : SessionRecord) (result : ProcessResult)
    (file : Option String) (hex : result.exitCode = 0)
    (h : resolveThreadId (parseSessionId (combinedOutputOf result)) session.codexThreadId = none ∨
      resolveThreadId (parseSessionId (combinedOutputOf result)) session.codexThreadId = some "") :
    sendMessageViaExec session result file = ⟨.error .missingThreadId, none⟩ := by
  rcases h with h | h <;> simp [sendMessageViaExec, hex, h]

/-- Batch mode when a thread id is resolved but no reply is found. -/
theorem exec_eq_noReply (session : SessionRecord) (result : ProcessResult)
    (file : Option String) (t : String) (hex : result.exitCode = 0)
    (ht : resolveThreadId (parseSessionId (combinedOutputOf result)) session.codexThreadId = some t)
    (hte : t ≠ "")
    (hr : readAssistantReply file (combinedOutputOf result) = none ∨
      readAssistantReply file (combinedOutputOf result) = some "") :
    sendMessageViaExec session result file = ⟨.error .missingReply, none⟩ := by
  rcases hr with hr | hr <;> simp [sendMessageViaExec, hex, ht, hte, hr]

/-- Batch mode success. -/
theorem exec_eq_success (session : SessionRecord) (result : ProcessResult)
    (file : Option String) (t rep : String) (hex : result.exitCode = 0)
    (ht : resolveThreadId (parseSessionId (combinedOutputOf result)) session.codexThreadId = some t)
    (hte : t ≠ "")
    (hr : readAssistantReply file (combinedOutputOf result) = some rep) (hre : rep ≠ "") :
    sendMessageViaExec session result file =
      ⟨.ok ⟨t, rep, parseRateLimits (combinedOutputOf result),
          parseContextWindow (combinedOutputOf result)⟩,
        if session.codexThreadId = some t then none else some t⟩ := by
  simp [sendMessageViaExec, hex, ht, hte, hr, hre]

/-- Interactive mode when no thread id is resolved. -/
theorem interactive_eq_threadFalsy (session : SessionRecord) (prompt : String)
    (result : ProcessResult) (logDelta : String)
    (h : resolveThreadId (parseSessionId (combinedOutputOf result ++ "\n" ++ logDelta))
        session.codexThreadId = none ∨
      resolveThreadId (parseSessionId (combinedOutputOf result ++ "\n" ++ logDelta))
        session.codexThreadId = some "") :
    sendMessageViaInteractiveSession session prompt result logDelta =
      ⟨.error .missingThreadId, none⟩ := by
  rcases h with h | h <;> simp [sendMessageViaInteractiveSession, h]

/-- Interactive mode when a thread id is resolved but no reply is
found. -/
theorem interactive_eq_noReply (session : SessionRecord) (prompt : String)
    (result : ProcessResult) (logDelta : String) (t : String)
    (ht : resolveThreadId (parseSessionId (combinedOutputOf result ++ "\n" ++ logDelta))
      session.codexThreadId = some t)
    (hte : t ≠ "")
    (hr : interactiveReplyOf result logDelta = none ∨
      interactiveReplyOf result logDelta = some "") :
    sendMessageViaInteractiveSession session prompt result logDelta =
      ⟨.error (interactiveNoReplyError result (resolveInteractiveTimeoutMs prompt)), none⟩ := by
  rcases hr with hr | hr <;> simp [sendMessageViaInteractiveSession, ht, hte, hr]

/-- Interactive mode when a reply was found but the process exited
nonzero without timing out. -/
theorem interactive_eq_replyHardFail (session : SessionRecord) (prompt : String)
    (result : ProcessResult) (logDelta : String) (t rep : String)
    (ht : resolveThreadId (parseSessionId (combinedOutputOf result ++ "\n" ++ logDelta))
      session.codexThreadId = some t)
    (hte : t ≠ "")
    (hr : interactiveReplyOf result logDelta = some rep) (hre : rep ≠ "")
    (hex : result.exitCode ≠ 0) (htm : result.timedOut = false) :
    sendMessageViaInteractiveSession session prompt result logDelta =
      ⟨.error (.externalCommandFailed (buildCodexFailureMessage result)), none⟩ := by
  simp [sendMessageViaInteractiveSession, ht, hte, hr, hre, hex, htm]

/-- Interactive mode success: a reply, a thread id, and either a clean
exit or a timed-out run. -/
theorem interactive_eq_success (session : SessionRecord) (prompt : String)
    (result : ProcessResult) (logDelta : String) (t rep : String)
    (ht : resolveThreadId (parseSessionId (combinedOutputOf result ++ "\n" ++ logDelta))
      session.codexThreadId = some t)
    (hte : t ≠ "")
    (hr : interactiveReplyOf result logDelta = some rep) (hre : rep ≠ "")
    (hok : result.exitCode = 0 ∨ result.timedOut = true) :
    sendMessageViaInteractiveSession session prompt result logDelta =
      ⟨.ok ⟨t, rep,
          (match parseRateLimits (combinedOutputOf result ++ "\n" ++ logDelta) with
           | some r => some r
           | none => parseRateLimits logDelta),
          (match parseContextWindow (combinedOutputOf result ++ "\n" ++ logDelta) with
           | some c => some c
           | none => parseContextWindow logDelta)⟩,
        if session.codexThreadId = some t then none else some t⟩ := by
  rcases hok with hok | hok <;> simp [sendMessageViaInteractiveSession, ht, hte, hr, hre, hok]

/-- C2: in both modes the bridge never replaces a known thread id with
undefined or an empty string — when no thread id is parsed from output,
the session's recorded codexThreadId is the resolved id, no store write
happens, and setSessionCodexThreadId is only ever invoked with a
non-empty id parsed from the process output. -/
theorem c2_thread_id_never_downgraded :
    (∀ (session : SessionRecord) (result : ProcessResult) (file : Option String) (w : String),
      (sendMessageViaExec session result file).threadIdWrite = some w →
      w ≠ "" ∧ parseSessionId (combinedOutputOf result) = some w) ∧
    (∀ (session : SessionRecord) (result : ProcessResult) (file : Option String)
        (tr : CodexTurnResult),
      parseSessionId (combinedOutputOf result) = none →
      (sendMessageViaExec session result file).result = Except.ok tr →
      session.codexThreadId = some tr.threadId ∧
        (sendMessageViaExec session result file).threadIdWrite = none) ∧
    (∀ (session : SessionRecord) (prompt : String) (result : ProcessResult) (logDelta : String)
        (w : String),
      (sendMessageViaInteractiveSession session prompt result logDelta).threadIdWrite = some w →
      w ≠ "" ∧ parseSessionId (combinedOutputOf result ++ "\n" ++ logDelta) = some w) ∧
    (∀ (session : SessionRecord) (prompt : String) (result : ProcessResult) (logDelta : String)
        (tr : CodexTurnResult),
      parseSessionId (combinedOutputOf result ++ "\n" ++ logDelta) = none →
      (sendMessageViaInteractiveSession session prompt result logDelta).result = Except.ok tr →
      session.codexThreadId = some tr.threadId ∧
        (sendMessageViaInteractiveSession session prompt result logDelta).threadIdWrite = none) := by
  refine ⟨?_, ?_, ?_, ?_⟩
  · intro session result file w h
    by_cases hex : result.exitCode = 0
    · rcases optionStr_trichotomy
        (resolveThreadId (parseSessionId (combinedOutputOf result)) session.codexThreadId) with
        ht | ht | ⟨t, ht, hte⟩
      · rw [exec_eq_threadFalsy _ _ _ hex (Or.inl ht)] at h
        exact Option.noConfusion h
      · rw [exec_eq_threadFalsy _ _ _ hex (Or.inr ht)] at h
        exact Option.noConfusion h
      · rcases optionStr_trichotomy (readAssistantReply file (combinedOutputOf result)) with
          hr | hr | ⟨rep, hr, hre⟩
        · rw [exec_eq_noReply _ _ _ t hex ht hte (Or.inl hr)] at h
          exact Option.noConfusion h
        · rw [exec_eq_noReply _ _ _ t hex ht hte (Or.inr hr)] at h
          exact Option.noConfusion h
        · rw [exec_eq_success _ _ _ t rep hex ht hte hr hre] at h
          by_cases hc : session.codexThreadId = some t
          · rw [if_pos hc] at h
            exact Option.noConfusion h
          · rw [if_neg hc] at h
            obtain rfl : t = w := Option.some.inj h
            refine ⟨hte, ?_⟩
            cases hp : parseSessionId (combinedOutputOf result) with
            | some p =>
              rw [hp] at ht
              simp only [resolveThreadId] at ht
              exact ht
            | none =>
              rw [hp] at ht
              simp only [resolveThreadId] at ht
              exact absurd ht hc
    · rw [exec_eq_exitFail _ _ _ hex] at h
      exact Option.noConfusion h
  · intro session result file tr hp hres
    have ht : resolveThreadId (parseSessionId (combinedOutputOf result)) session.codexThreadId
        = session.codexThreadId := by
      rw [hp]
      rfl
    by_cases hex : result.exitCode = 0
    · rcases optionStr_trichotomy session.codexThreadId with hc | hc | ⟨t, hc, hte⟩
      · rw [exec_eq_threadFalsy _ _ _ hex (Or.inl (ht.trans hc))] at hres
        exact Except.noConfusion hres
      · rw [exec_eq_threadFalsy _ _ _ hex (Or.inr (ht.trans hc))] at hres
        exact Except.noConfusion hres
      · rcases optionStr_trichotomy (readAssistantReply file (combinedOutputOf result)) with
          hr | hr | ⟨rep, hr, hre⟩
        · rw [exec_eq_noReply _ _ _ t hex (ht.trans hc) hte (Or.inl hr)] at hres
          exact Except.noConfusion hres
        · rw [exec_eq_noReply _ _ _ t hex (ht.trans hc) hte (Or.inr hr)] at hres
          exact Except.noConfusion hres
        · rw [exec_eq_success _ _ _ t rep hex (ht.trans hc) hte hr hre] at hres
          obtain rfl := Except.ok.inj hres
          refine ⟨hc, ?_⟩
          rw [exec_eq_success _ _ _ t rep hex (ht.trans hc) hte hr hre, if_pos hc]
    · rw [exec_eq_exitFail _ _ _ hex] at hres
      exact Except.noConfusion hres
  · intro session prompt result logDelta w h
    rcases optionStr_trichotomy
      (resolveThreadId (parseSessionId (combinedOutputOf result ++ "\n" ++ logDelta))
        session.codexThreadId) with ht | ht | ⟨t, ht, hte⟩
    · rw [interactive_eq_threadFalsy _ _ _ _ (Or.inl ht)] at h
      exact Option.noConfusion h
    · rw [interactive_eq_threadFalsy _ _ _ _ (Or.inr ht)] at h
      exact Option.noConfusion h
    · rcases optionStr_trichotomy (interactiveReplyOf result logDelta) with
        hr | hr | ⟨rep, hr, hre⟩
      · rw [interactive_eq_noReply _ _ _ _ t ht hte (Or.inl hr)] at h
        exact Option.noConfusion h
      · rw [interactive_eq_noReply _ _ _ _ t ht hte (Or.inr hr)] at h
        exact Option.noConfusion h
      · by_cases hhard : result.exitCode ≠ 0 ∧ result.timedOut = false
        · rw [interactive_eq_replyHardFail _ _ _ _ t rep ht hte hr hre hhard.1 hhard.2] at h
          exact Option.noConfusion h
        · have hok : result.exitCode = 0 ∨ result.timedOut = true := by
            rcases not_and_or.mp hhard with hh | hh
            · exact Or.inl (not_not.mp hh)
            · exact Or.inr (by simpa using hh)
          rw [interactive_eq_success _ _ _ _ t rep ht hte hr hre hok] at h
          by_cases hc : session.codexThreadId = some t
          · rw [if_pos hc] at h
            exact Option.noConfusion h
          · rw [if_neg hc] at h
            obtain rfl : t = w := Option.some.inj h
            refine ⟨hte, ?_⟩
            cases hp : parseSessionId (combinedOutputOf result ++ "\n" ++ logDelta) with
            | some p =>
              rw [hp] at ht
              simp only [resolveThreadId] at ht
              exact ht
            | none =>
              rw [hp] at ht
              simp only [resolveThreadId] at ht
              exact absurd ht hc
  · intro session prompt result logDelta tr hp hres
    have ht : resolveThreadId (parseSessionId (combinedOutputOf result ++ "\n" ++ logDelta))
        session.codexThreadId = session.codexThreadId := by
      rw [hp]
      rfl
    rcases optionStr_trichotomy session.codexThreadId with hc | hc | ⟨t, hc, hte⟩
    · rw [interactive_eq_threadFalsy _ _ _ _ (Or.inl (ht.trans hc))] at hres
      exact Except.noConfusion hres
    · rw [interactive_eq_threadFalsy _ _ _ _ (Or.inr (ht.trans hc))] at hres
      exact Except.noConfusion hres
    · rcases optionStr_trichotomy (interactiveReplyOf result logDelta) with
        hr | hr | ⟨rep, hr, hre⟩
      · rw [interactive_eq_noReply _ _ _ _ t (ht.trans hc) hte (Or.inl hr)] at hres
        exact Except.noConfusion hres
      · rw [interactive_eq_noReply _ _ _ _ t (ht.trans hc) hte (Or.inr hr)] at hres
        exact Except.noConfusion hres
      · by_cases hhard : result.exitCode ≠ 0 ∧ result.timedOut = false
        · rw [interactive_eq_replyHardFail _ _ _ _ t rep (ht.trans hc) hte hr hre
            hhard.1 hhard.2] at hres
          exact Except.noConfusion hres
        · have hok : result.exitCode = 0 ∨ result.timedOut = true := by
            rcases not_and_or.mp hhard with hh | hh
            · exact Or.inl (not_not.mp hh)
            · exact Or.inr (by simpa using hh)
          rw [interactive_eq_success _ _ _ _ t rep (ht.trans hc) hte hr hre hok] at hres
          obtain rfl := Except.ok.inj hres
          refine ⟨hc, ?_⟩
          rw [interactive_eq_success _ _ _ _ t rep (ht.trans hc) hte hr hre hok, if_pos hc]

/-- The session and process result of the C2 witness. -/
def c2Session : SessionRecord :=
  ⟨"session-1", "/tmp/project", "title", "user", "2024-01-01", none, none⟩

/-- Process result whose stdout announces thread id tid-1. -/
def c2Result : ProcessResult :=
  ⟨0, "\x7b\"type\":\"thread.started\",\"thread_id\":\"tid-1\"\x7d", "", false⟩

/-- Witness for C2: a performed store write carries the non-empty id
parsed from the output. -/
theorem c2_thread_id_never_downgraded_witness :
    "tid-1" ≠ "" ∧ parseSessionId (combinedOutputOf c2Result) = some "tid-1" :=
  c2_thread_id_never_downgraded.1 c2Session c2Result (some "Hello") "tid-1" (by rfl)

/-- C3: setSessionCodexThreadId is invoked only on the success path of
sendMessage — never on a typed failure — and only when the resolved
thread id differs from the session's recorded codexThreadId; resuming
and re-observing the already-recorded id performs zero writes. -/
theorem c3_store_write_only_on_success_and_change :
    (∀ (session : SessionRecord) (result : ProcessResult) (file : Option String)
        (e : CodexError),
      (sendMessageViaExec session result file).result = Except.error e →
      (sendMessageViaExec session result file).threadIdWrite = none) ∧
    (∀ (session : SessionRecord) (result : ProcessResult) (file : Option String) (w : String),
      (sendMessageViaExec session result file).threadIdWrite = some w →
      session.codexThreadId ≠ some w ∧
        ∃ tr : CodexTurnResult,
          (sendMessageViaExec session result file).result = Except.ok tr ∧ tr.threadId = w) ∧
    (∀ (session : SessionRecord) (result : ProcessResult) (file : Option String) (t : String),
      parseSessionId (combinedOutputOf result) = some t → session.codexThreadId = some t →
      (sendMessageViaExec session result file).threadIdWrite = none) ∧
    (∀ (session : SessionRecord) (prompt : String) (result : ProcessResult) (logDelta : String)
        (e : CodexError),
      (sendMessageViaInteractiveSession session prompt result logDelta).result = Except.error e →
      (sendMessageViaInteractiveSession session prompt result logDelta).threadIdWrite = none) ∧
    (∀ (session : SessionRecord) (prompt : String) (result : ProcessResult) (logDelta : String)
        (w : String),
      (sendMessageViaInteractiveSession session prompt result logDelta).threadIdWrite = some w →
      session.codexThreadId ≠ some w ∧
        ∃ tr : CodexTurnResult,
          (sendMessageViaInteractiveSession session prompt result logDelta).result
              = Except.ok tr ∧
            tr.threadId = w) ∧
    (∀ (session : SessionRecord) (prompt : String) (result : ProcessResult) (logDelta : String)
        (t : String),
      parseSessionId (combinedOutputOf result ++ "\n" ++ logDelta) = some t →
      session.codexThreadId = some t →
      (sendMessageViaInteractiveSession session prompt result logDelta).threadIdWrite
        = none) := by
  refine ⟨?_, ?_, ?_, ?_, ?_, ?_⟩
  · intro session result file e hres
    by_cases hex : result.exitCode = 0
    · rcases optionStr_trichotomy
        (resolveThreadId (parseSessionId (combinedOutputOf result)) session.codexThreadId) with
        ht | ht | ⟨t, ht, hte⟩
      · rw [exec_eq_threadFalsy _ _ _ hex (Or.inl ht)]
      · rw [exec_eq_threadFalsy _ _ _ hex (Or.inr ht)]
      · rcases optionStr_trichotomy (readAssistantReply file (combinedOutputOf result)) with
          hr | hr | ⟨rep, hr, hre⟩
        · rw [exec_eq_noReply _ _ _ t hex ht hte (Or.inl hr)]
        · rw [exec_eq_noReply _ _ _ t hex ht hte (Or.inr hr)]
        · rw [exec_eq_success _ _ _ t rep hex ht hte hr hre] at hres
          exact Except.noConfusion hres
    · rw [exec_eq_exitFail _ _ _ hex]
  · intro session result file w h
    by_cases hex : result.exitCode = 0
    · rcases optionStr_trichotomy
        (resolveThreadId (parseSessionId (combinedOutputOf result)) session.codexThreadId) with
        ht | ht | ⟨t, ht, hte⟩
      · rw [exec_eq_threadFalsy _ _ _ hex (Or.inl ht)] at h
        exact Option.noConfusion h
      · rw [exec_eq_threadFalsy _ _ _ hex (Or.inr ht)] at h
        exact Option.noConfusion h
      · rcases optionStr_trichotomy (readAssistantReply file (combinedOutputOf result)) with
          hr | hr | ⟨rep, hr, hre⟩
        · rw [exec_eq_noReply _ _ _ t hex ht hte (Or.inl hr)] at h
          exact Option.noConfusion h
        · rw [exec_eq_noReply _ _ _ t hex ht hte (Or.inr hr)] at h
          exact Option.noConfusion h
        · rw [exec_eq_success _ _ _ t rep hex ht hte hr hre] at h
          by_cases hc : session.codexThreadId = some t
          · rw [if_pos hc] at h
            exact Option.noConfusion h
          · rw [if_neg hc] at h
            obtain rfl : t = w := Option.some.inj h
            exact ⟨hc, ⟨t, rep, parseRateLimits (combinedOutputOf result),
              parseContextWindow (combinedOutputOf result)⟩,
              by rw [exec_eq_success _ _ _ t rep hex ht hte hr hre], rfl⟩
    · rw [exec_eq_exitFail _ _ _ hex] at h
      exact Option.noConfusion h
  · intro session result file t hp hc
    have ht : resolveThreadId (parseSessionId (combinedOutputOf result)) session.codexThreadId
        = some t := by
      rw [hp]
      rfl
    by_cases hex : result.exitCode = 0
    · by_cases hte : t = ""
      · rw [exec_eq_threadFalsy _ _ _ hex (Or.inr (hte ▸ ht))]
      · rcases optionStr_trichotomy (readAssistantReply file (combinedOutputOf result)) with
          hr | hr | ⟨rep, hr, hre⟩
        · rw [exec_eq_noReply _ _ _ t hex ht hte (Or.inl hr)]
        · rw [exec_eq_noReply _ _ _ t hex ht hte (Or.inr hr)]
        · rw [exec_eq_success _ _ _ t rep hex ht hte hr hre, if_pos hc]
    · rw [exec_eq_exitFail _ _ _ hex]
  · intro session prompt result logDelta e hres
    rcases optionStr_trichotomy
      (resolveThreadId (parseSessionId (combinedOutputOf result ++ "\n" ++ logDelta))
        session.codexThreadId) with ht | ht | ⟨t, ht, hte⟩
    · rw [interactive_eq_threadFalsy _ _ _ _ (Or.inl ht)]
    · rw [interactive_eq_threadFalsy _ _ _ _ (Or.inr ht)]
    · rcases optionStr_trichotomy (interactiveReplyOf result logDelta) with
        hr | hr | ⟨rep, hr, hre⟩
      · rw [interactive_eq_noReply _ _ _ _ t ht hte (Or.inl hr)]
      · rw [interactive_eq_noReply _ _ _ _ t ht hte (Or.inr hr)]
      · by_cases hhard : result.exitCode ≠ 0 ∧ result.timedOut = false
        · rw [interactive_eq_replyHardFail _ _ _ _ t rep ht hte hr hre hhard.1 hhard.2]
        · have hok : result.exitCode = 0 ∨ result.timedOut = true := by
            rcases not_and_or.mp hhard with hh | hh
            · exact Or.inl (not_not.mp hh)
            · exact Or.inr (by simpa using hh)
          rw [interactive_eq_success _ _ _ _ t rep ht hte hr hre hok] at hres
          exact Except.noConfusion hres
  · intro session prompt result logDelta w h
    rcases optionStr_trichotomy
      (resolveThreadId (parseSessionId (combinedOutputOf result ++ "\n" ++ logDelta))
        session.codexThreadId) with ht | ht | ⟨t, ht, hte⟩
    · rw [interactive_eq_threadFalsy _ _ _ _ (Or.inl ht)] at h
      exact Option.noConfusion h
    · rw [interactive_eq_threadFalsy _ _ _ _ (Or.inr ht)] at h
      exact Option.noConfusion h
    · rcases optionStr_trichotomy (interactiveReplyOf result logDelta) with
        hr | hr | ⟨rep, hr, hre⟩
      · rw [interactive_eq_noReply _ _ _ _ t ht hte (Or.inl hr)] at h
        exact Option.noConfusion h
      · rw [interactive_eq_noReply _ _ _ _ t ht hte (Or.inr hr)] at h
        exact Option.noConfusion h
      · by_cases hhard : result.exitCode ≠ 0 ∧ result.timedOut = false
        · rw [interactive_eq_replyHardFail _ _ _ _ t rep ht hte hr hre hhard.1 hhard.2] at h
          exact Option.noConfusion h
        · have hok : result.exitCode = 0 ∨ result.timedOut = true := by
            rcases not_and_or.mp hhard with hh | hh
            · exact Or.inl (not_not.mp hh)
            · exact Or.inr (by simpa using hh)
          rw [interactive_eq_success _ _ _ _ t rep ht hte hr hre hok] at h
          by_cases hc : session.codexThreadId = some t
          · rw [if_pos hc] at h
            exact Option.noConfusion h
          · rw [if_neg hc] at h
            obtain rfl : t = w := Option.some.inj h
            refine ⟨hc, ⟨t, rep, ?_, ?_⟩, ?_, rfl⟩
            · exact
                (match parseRateLimits (combinedOutputOf result ++ "\n" ++ logDelta) with
                 | some r => some r
                 | none => parseRateLimits logDelta)
            · exact
                (match parseContextWindow (combinedOutputOf result ++ "\n" ++ logDelta) with
                 | some c => some c
                 | none => parseContextWindow logDelta)
            · rw [interactive_eq_success _ _ _ _ t rep ht hte hr hre hok]
  · intro session prompt result logDelta t hp hc
    have ht : resolveThreadId (parseSessionId (combinedOutputOf result ++ "\n" ++ logDelta))
        session.codexThreadId = some t := by
      rw [hp]
      rfl
    by_cases hte : t = ""
    · rw [interactive_eq_threadFalsy _ _ _ _ (Or.inr (hte ▸ ht))]
    · rcases optionStr_trichotomy (interactiveReplyOf result logDelta) with
        hr | hr | ⟨rep, hr, hre⟩
      · rw [interactive_eq_noReply _ _ _ _ t ht hte (Or.inl hr)]
      · rw [interactive_eq_noReply _ _ _ _ t ht hte (Or.inr hr)]
      · by_cases hhard : result.exitCode ≠ 0 ∧ result.timedOut = false
        · rw [interactive_eq_replyHardFail _ _ _ _ t rep ht hte hr hre hhard.1 hhard.2]
        · have hok : result.exitCode = 0 ∨ result.timedOut = true := by
            rcases not_and_or.mp hhard with hh | hh
            · exact Or.inl (not_not.mp hh)
            · exact Or.inr (by simpa using hh)
          rw [interactive_eq_success _ _ _ _ t rep ht hte hr hre hok, if_pos hc]

/-- Witness for C3: resuming a session and re-observing its recorded
thread id performs zero store writes. -/
theorem c3_store_write_only_on_success_and_change_witness :
    (sendMessageViaExec ⟨"session-1", "/tmp/project", "title", "user", "2024-01-01", none,
        some "tid-1"⟩
      c2Result (some "Hello")).threadIdWrite = none :=
  c3_store_write_only_on_success_and_change.2.2.1
    ⟨"session-1", "/tmp/project", "title", "user", "2024-01-01", none, some "tid-1"⟩
    c2Result (some "Hello") "tid-1" (by decide) (by rfl)

/-- Session with no recorded thread id, for the C4 counterexample. -/
def c4Session : SessionRecord :=
  ⟨"session-1", "/tmp/project", "title", "user", "2024-01-01", none, none⟩

/-- A timed-out interactive run with no output. -/
def c4Result : ProcessResult := ⟨124, "", "", true⟩

/-- C4 counterexample: a timed-out interactive run with no reply fails
with MissingThreadId — not with the claimed InteractiveTimeout — when no
thread id can be resolved from output or the session, so the claimed
selection order does not hold unconditionally and the error mentions no
"15s". -/
theorem c4_interactive_error_order_counterexample :
    c4Result.timedOut = true ∧
    interactiveReplyOf c4Result "" = none ∧
    (sendMessageViaInteractiveSession c4Session "/status" c4Result "").result
      = Except.error CodexError.missingThreadId :=
  ⟨rfl, by decide, by rfl⟩

/-- C4 (amended): in interactive mode, provided a (non-empty) thread id
was resolved from the output or the session's record, a run with no
extractable reply fails with InteractiveTimeout naming the elapsed
seconds (the timeout in milliseconds divided by 1000, rounded) if it
timed out, else with ExternalCommandFailed if the exit code is nonzero,
else with MissingReply; a run with a reply that exited nonzero without
timing out still fails with ExternalCommandFailed; a 15-second timeout
with no reply produces an error mentioning "15s". -/
theorem c4_interactive_error_order_amended :
    (∀ (session : SessionRecord) (prompt : String) (result : ProcessResult) (logDelta : String)
        (t : String),
      resolveThreadId (parseSessionId (combinedOutputOf result ++ "\n" ++ logDelta))
          session.codexThreadId = some t →
      t ≠ "" →
      interactiveReplyOf result logDelta = none →
      (sendMessageViaInteractiveSession session prompt result logDelta).result =
        Except.error (interactiveNoReplyError result (resolveInteractiveTimeoutMs prompt))) ∧
    (∀ (result : ProcessResult) (tms : ℚ), result.timedOut = true →
      interactiveNoReplyError result tms
        = CodexError.interactiveTimeout (interactiveTimeoutMessage tms)) ∧
    (∀ (result : ProcessResult) (tms : ℚ), result.timedOut = false → result.exitCode ≠ 0 →
      interactiveNoReplyError result tms
        = CodexError.externalCommandFailed (buildCodexFailureMessage result)) ∧
    (∀ (result : ProcessResult) (tms : ℚ), result.timedOut = false → result.exitCode = 0 →
      interactiveNoReplyError result tms = CodexError.missingReply) ∧
    (∀ tms : ℚ, interactiveTimeoutMessage tms
      = "Codex interactive command timed out after " ++ toString (jsRound (tms / 1000)) ++
          "s without an assistant reply.") ∧
    (∀ (session : SessionRecord) (prompt : String) (result : ProcessResult) (logDelta : String)
        (t rep : String),
      resolveThreadId (parseSessionId (combinedOutputOf result ++ "\n" ++ logDelta))
          session.codexThreadId = some t →
      t ≠ "" →
      interactiveReplyOf result logDelta = some rep → rep ≠ "" →
      result.exitCode ≠ 0 → result.timedOut = false →
      (sendMessageViaInteractiveSession session prompt result logDelta).result =
        Except.error (CodexError.externalCommandFailed (buildCodexFailureMessage result))) ∧
    resolveInteractiveTimeoutMs "/status" = 15000 ∧
    containsSub (interactiveTimeoutMessage 15000).data "15s".data = true := by
  refine ⟨?_, ?_, ?_, ?_, ?_, ?_, by decide, by decide⟩
  · intro session prompt result logDelta t ht hte hr
    rw [interactive_eq_noReply session prompt result logDelta t ht hte (Or.inl hr)]
  · intro result tms h
    simp [interactiveNoReplyError, h]
  · intro result tms h hex
    simp [interactiveNoReplyError, h, hex]
  · intro result tms h hex
    simp [interactiveNoReplyError, h, hex]
  · intro tms
    rfl
  · intro session prompt result logDelta t rep ht hte hr hre hex htm
    rw [interactive_eq_replyHardFail session prompt result logDelta t rep ht hte hr hre hex htm]

/-- A session that already carries thread id tid-0. -/
def c4ResumedSession : SessionRecord :=
  ⟨"session-1", "/tmp/project", "title", "user", "2024-01-01", none, some "tid-0"⟩

/-- Witness for the amended C4: a timed-out /status run with a resolved
thread id and no reply yields the selected no-reply failure. -/
theorem c4_interactive_error_order_amended_witness :
    (sendMessageViaInteractiveSession c4ResumedSession "/status" c4Result "").result =
      Except.error (interactiveNoReplyError c4Result (resolveInteractiveTimeoutMs "/status")) :=
  c4_interactive_error_order_amended.1 c4ResumedSession "/status" c4Result "" "tid-0"
    (by rfl) (by decide) (by decide)

/-- C10: in interactive mode a timed-out run (any exit code) does not by
itself fail the call — whenever a non-empty reply and a thread id are
still extracted, sendMessage succeeds with the TurnResult, because the
nonzero-exit check after a reply is found is skipped when the timedOut
flag is set. -/
theorem c10_timeout_does_not_mask_reply :
    ∀ (session : SessionRecord) (prompt : String) (result : ProcessResult) (logDelta : String)
      (t rep : String),
      result.timedOut = true →
      resolveThreadId (parseSessionId (combinedOutputOf result ++ "\n" ++ logDelta))
        session.codexThreadId = some t →
      t ≠ "" →
      interactiveReplyOf result logDelta = some rep →
      rep ≠ "" →
      ∃ tr : CodexTurnResult,
        (sendMessageViaInteractiveSession session prompt result logDelta).result
            = Except.ok tr ∧
          tr.threadId = t ∧ tr.reply = rep ∧
          (sendMessageViaInteractiveSession session prompt result logDelta).threadIdWrite =
            (if session.codexThreadId = some t then none else some t) := by
  intro session prompt result logDelta t rep htm ht hte hr hre
  rw [interactive_eq_success session prompt result logDelta t rep ht hte hr hre (Or.inr htm)]
  exact ⟨_, rfl, rfl, rfl, rfl⟩

/-- Structured log delta carrying an agent_message reply. -/
def c10LogDelta : String := "\x7b\"type\":\"agent_message\",\"message\":\"Done\"\x7d"

/-- Witness for C10: a run with exit code 124 and timedOut set still
succeeds when the log delta yields a reply and the session knows its
thread id. -/
theorem c10_timeout_does_not_mask_reply_witness :
    ∃ tr : CodexTurnResult,
      (sendMessageViaInteractiveSession c4ResumedSession "/status" c4Result c10LogDelta).result
          = Except.ok tr ∧
        tr.threadId = "tid-0" ∧ tr.reply = "Done" ∧
        (sendMessageViaInteractiveSession c4ResumedSession "/status" c4Result
              c10LogDelta).threadIdWrite =
          (if c4ResumedSession.codexThreadId = some "tid-0" then none else some "tid-0") :=
  c10_timeout_does_not_mask_reply c4ResumedSession "/status" c4Result c10LogDelta "tid-0" "Done"
    rfl (by rfl) (by decide) (by rfl) (by decide)

/-- C9: the log-tailer delta is exactly the lines appended after the
snapshot's recorded line count when the currently latest file is the one
the snapshot recorded (in particular, appended content is returned
verbatim); the entire content of the latest file when the file identity
differs from the snapshot; and the empty string — never an error — when
no log file exists or it cannot be read. -/
theorem c9_readSessionLogDelta_cases :
    (∀ (fs : LogFs) (snap : SessionLogSnapshot) (p content : String),
      fs.latest = some p → fs.read p = some content → snap.latestFilePath = some p →
      readSessionLogDelta fs snap = joinNL ((splitNL content).drop snap.lineCount)) ∧
    (∀ (fs1 fs2 : LogFs) (p c extra : String),
      fs1.latest = some p → fs1.read p = some c →
      fs2.latest = some p → fs2.read p = some (c ++ "\n" ++ extra) →
      readSessionLogDelta fs2 (captureSessionLogSnapshot fs1) = extra) ∧
    (∀ (fs : LogFs) (snap : SessionLogSnapshot) (p content : String),
      fs.latest = some p → fs.read p = some content → snap.latestFilePath ≠ some p →
      readSessionLogDelta fs snap = content) ∧
    (∀ (fs : LogFs) (snap : SessionLogSnapshot), fs.latest = none →
      readSessionLogDelta fs snap = "") ∧
    (∀ (fs : LogFs) (snap : SessionLogSnapshot) (p : String), fs.latest = some p →
      fs.read p = none → readSessionLogDelta fs snap = "") := by
  refine ⟨?_, ?_, ?_, ?_, ?_⟩
  · intro fs snap p content h1 h2 h3
    simp [readSessionLogDelta, h1, h2, h3]
  · intro fs1 fs2 p c extra h1 h2 h3 h4
    have hsnap : captureSessionLogSnapshot fs1 = ⟨some p, (splitNL c).length⟩ := by
      simp [captureSessionLogSnapshot, h1, countFileLines, h2]
    rw [hsnap]
    simp only [readSessionLogDelta, h3, h4]
    rw [if_pos trivial, splitNL_append, List.drop_left, joinNL_splitNL]
  · intro fs snap p content h1 h2 h3
    simp [readSessionLogDelta, h1, h2, h3, joinNL_splitNL]
  · intro fs snap h
    simp [readSessionLogDelta, h]
  · intro fs snap p h1 h2
    simp [readSessionLogDelta, h1, h2]

/-- Log directory before the interactive run: one file with two lines. -/
def c9Fs1 : LogFs :=
  ⟨some "rollout.jsonl", fun p => if p = "rollout.jsonl" then some "l1\nl2" else none⟩

/-- The same file after two more lines were appended. -/
def c9Fs2 : LogFs :=
  ⟨some "rollout.jsonl",
    fun p => if p = "rollout.jsonl" then some ("l1\nl2" ++ "\n" ++ "l3\nl4") else none⟩

/-- Witness for C9: the delta of an appended file is the appended
lines. -/
theorem c9_readSessionLogDelta_cases_witness :
    readSessionLogDelta c9Fs2 (captureSessionLogSnapshot c9Fs1) = "l3\nl4" :=
  c9_readSessionLogDelta_cases.2.1 c9Fs1 c9Fs2 "rollout.jsonl" "l1\nl2" "l3\nl4"
    rfl (by rfl) rfl (by rfl)

/-- Two same-session calls: 0 arrives, 1 arrives and queues, 0 runs and
is rejected, 1 still runs afterwards and is fulfilled. -/
def c1A1 : LockState := arriveUpd "s" 0 initLockState

/-- Second same-session arrival queues behind call 0. -/
def c1A2 : LockState := arriveUpd "s" 1 c1A1

/-- Call 0 starts. -/
def c1A3 : LockState := startUpd 0 c1A2

/-- Call 0 is rejected. -/
def c1A4 : LockState := settleUpd 0 false c1A3

/-- Call 1 starts after the rejection. -/
def c1A5 : LockState := startUpd 1 c1A4

/-- Call 1 is fulfilled. -/
def c1A6 : LockState := settleUpd 1 true c1A5

/-- Two distinct-session calls: call 0 still in flight while call 1 runs
to completion. -/
def c1B1 : LockState := arriveUpd "a" 0 initLockState

/-- Call 0 starts. -/
def c1B2 : LockState := startUpd 0 c1B1

/-- Call 1 on session "b" arrives while call 0 is in flight. -/
def c1B3 : LockState := arriveUpd "b" 1 c1B2

/-- Call 1 starts immediately (no queueing across sessions). -/
def c1B4 : LockState := startUpd 1 c1B3

/-- Call 1 settles while call 0 is still running. -/
def c1B5 : LockState := settleUpd 1 true c1B4

/-- The rejected-then-queued execution is reachable. -/
theorem c1A6_reachable : LockReaches ["s", "s"] c1A6 := by
  have h1 : LockReaches ["s", "s"] c1A1 :=
    LockReaches.step LockReaches.init
      (LockStep.arrive initLockState 0 (by decide) rfl
        (fun k hk => absurd hk (Nat.not_lt_zero k)))
  have h2 : LockReaches ["s", "s"] c1A2 :=
    LockReaches.step h1
      (LockStep.arrive c1A1 1 (by decide) (by decide)
        (by
          intro k hk
          have hk0 : k = 0 := Nat.lt_one_iff.mp hk
          subst hk0
          decide))
  have h3 : LockReaches ["s", "s"] c1A3 :=
    LockReaches.step h2
      (LockStep.start c1A2 0 (by decide)
        (by
          intro k hk
          rw [show c1A2.pred 0 = none from by decide] at hk
          exact Option.noConfusion hk))
  have h4 : LockReaches ["s", "s"] c1A4 :=
    LockReaches.step h3 (LockStep.settle c1A3 0 false (by decide))
  have h5 : LockReaches ["s", "s"] c1A5 :=
    LockReaches.step h4
      (LockStep.start c1A4 1 (by decide)
        (by
          intro k hk
          rw [show c1A4.pred 1 = some 0 from by decide] at hk
          have hk0 : k = 0 := (Option.some.inj hk).symm
          subst hk0
          decide))
  exact LockReaches.step h5 (LockStep.settle c1A5 1 true (by decide))

/-- The cross-session interleaving is reachable. -/
theorem c1B5_reachable : LockReaches ["a", "b"] c1B5 := by
  have h1 : LockReaches ["a", "b"] c1B1 :=
    LockReaches.step LockReaches.init
      (LockStep.arrive initLockState 0 (by decide) rfl
        (fun k hk => absurd hk (Nat.not_lt_zero k)))
  have h2 : LockReaches ["a", "b"] c1B2 :=
    LockReaches.step h1
      (LockStep.start c1B1 0 (by decide)
        (by
          intro k hk
          rw [show c1B1.pred 0 = none from by decide] at hk
          exact Option.noConfusion hk))
  have h3 : LockReaches ["a", "b"] c1B3 :=
    LockReaches.step h2
      (LockStep.arrive c1B2 1 (by decide) (by decide)
        (by
          intro k hk
          have hk0 : k = 0 := Nat.lt_one_iff.mp hk
          subst hk0
          decide))
  have h4 : LockReaches ["a", "b"] c1B4 :=
    LockReaches.step h3
      (LockStep.start c1B3 1 (by decide)
        (by
          intro k hk
          rw [show c1B3.pred 1 = none from by decide] at hk
          exact Option.noConfusion hk))
  exact LockReaches.step h4 (LockStep.settle c1B4 1 true (by decide))

/-- C1: under withSessionLock, in every reachable execution a later call
on the same session id begins its operation only after every earlier call
on that id has settled — so queued callers run in FIFO arrival order and
at most one operation per session id is in flight; a rejected operation's
outcome is recorded for its own caller without preventing the next queued
operation on that session id from running (concrete execution with
outcome 0 rejected and call 1 settled); and calls on distinct session ids
are not serialized (concrete execution where call 1 settles while call 0
is still in flight). -/
theorem c1_session_lock_serializes :
    (∀ (sids : List String) (st : LockState), LockReaches sids st →
      ∀ i j : Nat, i < j → sidAt sids i = sidAt sids j →
        (st.phase j).hasStarted = true → (st.phase i).isSettled = true) ∧
    (∀ (sids : List String) (st : LockState), LockReaches sids st →
      ∀ i j : Nat, i ≠ j → sidAt sids i = sidAt sids j →
        ¬(st.phase i = Phase.started ∧ st.phase j = Phase.started)) ∧
    (LockReaches ["s", "s"] c1A6 ∧ c1A6.outcome 0 = some false ∧
      c1A6.phase 0 = Phase.settled ∧ c1A6.outcome 1 = some true ∧
      c1A6.phase 1 = Phase.settled) ∧
    (LockReaches ["a", "b"] c1B5 ∧ c1B5.phase 0 = Phase.started ∧
      c1B5.phase 1 = Phase.settled) := by
  refine ⟨?_, ?_, ⟨c1A6_reachable, by decide, by decide, by decide, by decide⟩,
    ⟨c1B5_reachable, by decide, by decide⟩⟩
  · intro sids st h i j hij hsid hst
    exact (lockInv_reaches h).serial i j hij hsid hst
  · intro sids st h i j hne hsid hcon
    obtain ⟨hi, hj⟩ := hcon
    rcases lt_or_gt_of_ne hne with hlt | hgt
    · have := (lockInv_reaches h).serial i j hlt hsid (by rw [hj]; rfl)
      rw [hi] at this
      exact absurd this (by decide)
    · have := (lockInv_reaches h).serial j i hgt hsid.symm (by rw [hi]; rfl)
      rw [hj] at this
      exact absurd this (by decide)

/-- Witness for C1: in the two-call same-session execution after the
second call has started, the first call has settled. -/
theorem c1_session_lock_serializes_witness :
    (c1A5.phase 0).isSettled = true :=
  c1_session_lock_serializes.1 ["s", "s"] c1A5
    (LockReaches.step
      (LockReaches.step
        (LockReaches.step
          (LockReaches.step
            (LockReaches.step LockReaches.init
              (LockStep.arrive initLockState 0 (by decide) rfl
                (fun k hk => absurd hk (Nat.not_lt_zero k))))
            (LockStep.arrive c1A1 1 (by decide) (by decide)
              (by
                intro k hk
                have hk0 : k = 0 := Nat.lt_one_iff.mp hk
                subst hk0
                decide)))
          (LockStep.start c1A2 0 (by decide)
            (by
              intro k hk
              rw [show c1A2.pred 0 = none from by decide] at hk
              exact Option.noConfusion hk)))
        (LockStep.settle c1A3 0 false (by decide)))
      (LockStep.start c1A4 1 (by decide)
        (by
          intro k hk
          rw [show c1A4.pred 1 = some 0 from by decide] at hk
          have hk0 : k = 0 := (Option.some.inj hk).symm
          subst hk0
          decide)))
    0 1 (by decide) rfl (by decide)
